import Mathlib

/-!
# Channel Sounding initiator / reflector (`cs_ini/main.c`, `cs_ref/main.c`)

A shallow embedding of the two programs.

* Everything a program does to the outside world (log records, `printk`
  calls, calls into the Bluetooth stack, the kernel or the board library) is
  recorded, in program order, as a list of `Ev`. Log records and `printk`
  calls keep their format string and arguments; `render` gives their text.
* `subevent_result_cb` is embedded as a function from the subevent result to
  the events it emits; its two `for` loops run on `size_t` counters of `w`
  bits and take a fuel argument (`Fault.fuel` = the fuel ran out).
* Each program is a transition system: `main` is a program counter, the
  semaphores are counters, and a step is either `main` executing its next
  statement or the stack delivering one callback. A callback runs to its end
  before the next step; the stack may deliver any callback at any time.
* `sys_reboot` puts every variable back to its boot value; a state keeps the
  events since the last boot (`trace`) apart from those of earlier boots
  (`past`).
-/

namespace Waves

/-! ## Output events -/

/-- Severity of a log record (`LOG_INF`, `LOG_WRN`, `LOG_ERR`). -/
inductive LogLevel where
  | INF
  | WRN
  | ERR
  deriving DecidableEq, Repr

/-- Handle of a `struct bt_conn`. -/
abbrev Conn := Nat

/-- Variadic argument of a log record or of `printk`. -/
inductive Arg where
  /-- an integer argument (after the C default promotions) -/
  | num (v : Int)
  /-- the text `bt_addr_le_to_str(bt_conn_get_dst(conn))` -/
  | addr (conn : Conn)
  /-- the text `bt_security_err_to_str(err)` -/
  | secerr (err : Nat)
  /-- the address text of a scanned device -/
  | devaddr (dev : Nat)
  deriving DecidableEq, Repr

/-- Modelled from the spec: the header of a Subevent Result (the type
`struct bt_conn_le_cs_subevent_result` is declared outside the sources); the
eight fields are the ones `subevent_result_cb` reads. The reference power
level is the only signed one. -/
structure subevent_result_header where
  procedure_counter : Nat
  procedure_done_status : Nat
  subevent_done_status : Nat
  procedure_abort_reason : Nat
  subevent_abort_reason : Nat
  reference_power_level : Int
  num_antenna_paths : Nat
  num_steps_reported : Nat
  deriving DecidableEq, Repr

/-- Modelled from the spec: the raw byte buffer of a Subevent Result
(`struct net_buf_simple`, declared outside the sources): `data` is the storage
the data pointer refers to, `len` the number of bytes in use. -/
structure net_buf_simple where
  data : List Nat
  len : Nat
  deriving DecidableEq, Repr

/-- Modelled from the spec: a Subevent Result; `step_data_buf` is a pointer
and may be null (`none`). -/
structure bt_conn_le_cs_subevent_result where
  header : subevent_result_header
  step_data_buf : Option net_buf_simple
  deriving DecidableEq, Repr

/-- The C type ranges of a buffer: `len` is a `uint16_t`, it does not exceed
the storage, and every element is a `uint8_t`. -/
def net_buf_simple.wf (b : net_buf_simple) : Prop :=
  b.len < 65536 ∧ b.len ≤ b.data.length ∧ ∀ x ∈ b.data, x < 256

/-- The bytes `b[0..L-1]` of a buffer. -/
def net_buf_simple.bytes (b : net_buf_simple) : List Nat :=
  b.data.take b.len

/-- Modelled from the spec: the Config Record delivered with a config-creation
completion (`struct bt_conn_le_cs_config`, declared outside the sources), with
the fields `config_create_cb` reads. -/
structure bt_conn_le_cs_config where
  id : Nat
  mode : Nat
  min_main_mode_steps : Nat
  max_main_mode_steps : Nat
  main_mode_repetition : Nat
  mode_0_steps : Nat
  role : Nat
  cs_sync_phy : Nat
  channel_selection_type : Nat
  deriving DecidableEq, Repr

/-- Modelled from the spec: the Procedure Enable Record
(`struct bt_conn_le_cs_procedure_enable_complete`, declared outside the
sources), with the fields `procedure_enable_cb` reads. -/
structure bt_conn_le_cs_procedure_enable_complete where
  state : Nat
  config_id : Nat
  tone_antenna_config_selection : Nat
  selected_tx_power : Int
  subevent_len : Nat
  subevents_per_event : Nat
  subevent_interval : Nat
  event_interval : Nat
  procedure_interval : Nat
  procedure_count : Nat
  max_procedure_len : Nat
  deriving DecidableEq, Repr

/-- One invocation of a callback by the Bluetooth stack, with its arguments. -/
inductive Callback where
  | connected (conn : Conn) (err : Nat)
  | disconnected (conn : Conn) (reason : Nat)
  | le_param_req (conn : Conn)
  | security_changed (conn : Conn) (level : Nat) (err : Nat)
  | remote_capabilities (conn : Conn) (status : Nat)
  | config_create (conn : Conn) (status : Nat) (config : bt_conn_le_cs_config)
  | security_enable (conn : Conn) (status : Nat)
  | procedure_enable (conn : Conn) (status : Nat)
      (params : bt_conn_le_cs_procedure_enable_complete)
  | subevent_result (conn : Conn) (result : bt_conn_le_cs_subevent_result)
  | scan_filter_match (dev : Nat) (connectable : Bool)
  | scan_connecting_error (dev : Nat) (scan_start_ret : Int)
  | scan_connecting (dev : Nat) (conn : Conn)
  deriving DecidableEq, Repr

/-- A call out of the program: into the Bluetooth stack, the kernel or the
board library. `connection` arguments carry the value of the global
`connection` at the time of the call. -/
inductive Call where
  | dk_leds_init
  | bt_enable
  | settings_load
  | bt_le_adv_start
  | bt_scan_init
  | bt_scan_cb_register
  | bt_scan_filter_add
  | bt_scan_filter_enable
  | bt_scan_start
  | bt_conn_ref (conn : Conn)
  | bt_conn_unref (conn : Conn)
  | dk_set_led_on
  | dk_set_led_off
  | sys_reboot (cold : Bool)
  | bt_conn_set_security (connection : Option Conn) (level : Nat)
  | bt_le_cs_set_default_settings (connection : Option Conn)
      (enable_initiator_role enable_reflector_role : Bool)
  | bt_le_cs_read_remote_supported_capabilities (connection : Option Conn)
  | bt_le_cs_set_valid_chmap_bits
  | bt_le_cs_create_config (connection : Option Conn)
      (id min_main_mode_steps max_main_mode_steps main_mode_repetition
        mode_0_steps channel_map_repetition ch3c_jump : Nat)
  | bt_le_cs_security_enable (connection : Option Conn)
  | bt_le_cs_set_procedure_parameters (connection : Option Conn)
      (config_id max_procedure_len min_procedure_interval max_procedure_interval
        max_procedure_count min_subevent_len max_subevent_len : Nat)
  | bt_le_cs_procedure_enable (connection : Option Conn) (config_id enable : Nat)
  deriving DecidableEq, Repr

/-- One externally visible action of a program. -/
inductive Ev where
  /-- a log record: `LOG_INF(fmt, args...)` and friends -/
  | log (lvl : LogLevel) (fmt : String) (args : List Arg)
  /-- a call `printk(fmt, args...)` -/
  | printk (fmt : String) (args : List Arg)
  /-- a call out of the program, with the `int` it returned (0 when it returns
  none) -/
  | call (c : Call) (ret : Int)
  /-- the stack invokes a callback -/
  | enter (cb : Callback)
  deriving DecidableEq, Repr

/-! ## Text rendering of `printk` -/

/-- Left-pad a digit string with `'0'` to a minimum width. -/
def zeroPad (width : Nat) (ds : List Char) : List Char :=
  List.replicate (width - ds.length) '0' ++ ds

/-- The conversion `%02x`: lowercase hexadecimal of the argument taken as a
32-bit `unsigned int`, zero-padded to at least two digits. -/
def fmt_02x (v : Int) : List Char :=
  zeroPad 2 (Nat.toDigits 16 (v % 4294967296).toNat)

/-- The conversion `%u`: decimal of the argument taken as a 32-bit
`unsigned int`. -/
def fmt_u (v : Int) : List Char :=
  Nat.toDigits 10 (v % 4294967296).toNat

/-- The conversion `%d`: signed decimal. -/
def fmt_d (v : Int) : List Char :=
  if v < 0 then '-' :: Nat.toDigits 10 v.natAbs else Nat.toDigits 10 v.toNat

/-- The text a format string and its arguments produce, for the conversions
the two programs pass to `printk` and to the log macros with integer
arguments: `%02x`, `%u`, `%d`. Any other character is copied. -/
def render : List Char → List Arg → List Char
  | [], _ => []
  | '%' :: '0' :: '2' :: 'x' :: fmt, .num v :: args => fmt_02x v ++ render fmt args
  | '%' :: 'u' :: fmt, .num v :: args => fmt_u v ++ render fmt args
  | '%' :: 'd' :: fmt, .num v :: args => fmt_d v ++ render fmt args
  | c :: fmt, args => c :: render fmt args

/-- The characters the `printk` calls among the events write, in order. -/
def printkText : List Ev → List Char
  | [] => []
  | .printk fmt args :: evs => render fmt.toList args ++ printkText evs
  | _ :: evs => printkText evs

/-- Split a character stream into its newline-terminated lines (the
terminator is dropped; characters after the last newline are no line). -/
def splitLinesAux : List Char → List Char → List (List Char)
  | [], _ => []
  | c :: cs, cur =>
    if c = '\n' then cur.reverse :: splitLinesAux cs [] else splitLinesAux cs (c :: cur)

/-- The newline-terminated lines of a character stream. -/
def splitLines (cs : List Char) : List (List Char) :=
  splitLinesAux cs []

/-- Value of a lowercase hexadecimal digit. -/
def hexVal (c : Char) : Option Nat :=
  if '0' ≤ c ∧ c ≤ '9' then some (c.toNat - 48)
  else if 'a' ≤ c ∧ c ≤ 'f' then some (c.toNat - 87)
  else none

/-- Read a character string as consecutive two-digit lowercase hexadecimal
byte values. -/
def parseHexBytes : List Char → Option (List Nat)
  | [] => some []
  | [_] => none
  | hi :: lo :: cs =>
    match hexVal hi, hexVal lo, parseHexBytes cs with
    | some h, some l, some bs => some ((16 * h + l) :: bs)
    | _, _, _ => none

/-- Read one hex-dump line: the two-space indent, then the byte values. -/
def parseHexLine : List Char → Option (List Nat)
  | ' ' :: ' ' :: cs => parseHexBytes cs
  | _ => none

/-- The hex-dump lines among the events: the lines `printk` wrote. -/
def hexDumpLines (evs : List Ev) : List (List Char) :=
  splitLines (printkText evs)

/-! ## `subevent_result_cb` (identical in both programs) -/

/-- Why a run of the hex-dump loops produced no output. -/
inductive Fault where
  /-- the loop was still running when the fuel ran out -/
  | fuel
  /-- a read of `data[idx]` outside the storage -/
  | read (idx : Nat)
  deriving DecidableEq, Repr

/-- The inner loop
`for (size_t j = 0; j < 16 && (i + j) < len; j++) printk("%02x", data[i + j]);`
from counter value `j`, on `size_t` of `w` bits. -/
def hexdump_inner (w : Nat) (buf : net_buf_simple) (i : Nat) :
    Nat → Nat → Except Fault (List Ev)
  | 0, _ => .error .fuel
  | fuel + 1, j =>
    if j < 16 ∧ (i + j) % 2 ^ w < buf.len then
      match buf.data[(i + j) % 2 ^ w]? with
      | none => .error (.read ((i + j) % 2 ^ w))
      | some b =>
        match hexdump_inner w buf i fuel ((j + 1) % 2 ^ w) with
        | .error e => .error e
        | .ok rest => .ok (.printk "%02x" [.num b] :: rest)
    else .ok []

/-- The outer loop `for (size_t i = 0; i < len; i += 16) { ... }` from counter
value `i`; every run of the inner loop gets `fuel` iterations. -/
def hexdump_outer (w : Nat) (buf : net_buf_simple) (fuel : Nat) :
    Nat → Nat → Except Fault (List Ev)
  | 0, _ => .error .fuel
  | n + 1, i =>
    if i < buf.len then
      match hexdump_inner w buf i fuel 0 with
      | .error e => .error e
      | .ok line =>
        match hexdump_outer w buf fuel n ((i + 16) % 2 ^ w) with
        | .error e => .error e
        | .ok rest => .ok (.printk "  " [] :: line ++ .printk "\n" [] :: rest)
    else .ok []

/-- The header records of `subevent_result_cb`, lines 27-35 of
`cs_ini/main.c` (30-38 of `cs_ref/main.c`). -/
def subevent_header (h : subevent_result_header) : List Ev :=
  [ .log .INF "CS Subevent result received:" [],
    .log .INF " - Procedure counter: %u" [.num h.procedure_counter],
    .log .INF " - Procedure done status: %u" [.num h.procedure_done_status],
    .log .INF " - Subevent done status: %u" [.num h.subevent_done_status],
    .log .INF " - Procedure abort reason: %u" [.num h.procedure_abort_reason],
    .log .INF " - Subevent abort reason: %u" [.num h.subevent_abort_reason],
    .log .INF " - Reference power level: %d" [.num h.reference_power_level],
    .log .INF " - Num antenna paths: %u" [.num h.num_antenna_paths],
    .log .INF " - Num steps reported: %u" [.num h.num_steps_reported] ]

/-- The buffer part of `subevent_result_cb`: the `if` of line 37. -/
def subevent_buffer (w fuel : Nat) : Option net_buf_simple → Except Fault (List Ev)
  | none => .ok []
  | some buf =>
    if buf.len > 0 then
      match hexdump_outer w buf fuel fuel 0 with
      | .error e => .error e
      | .ok dump =>
        .ok (.log .INF " - Step data buffer length: %u bytes" [.num buf.len]
              :: .log .INF "Raw step data:" [] :: dump)
    else .ok []

/-- The callback `subevent_result_cb`: the events it emits, in order. -/
def subevent_result_cb (w fuel : Nat) (_conn : Conn)
    (result : bt_conn_le_cs_subevent_result) : Except Fault (List Ev) :=
  match subevent_buffer w fuel result.step_data_buf with
  | .error e => .error e
  | .ok body => .ok (subevent_header result.header ++ body ++ [.log .INF "CS Subevent end" []])

/-! ## Kernel semaphores and trace predicates -/

/-- A Zephyr semaphore, `K_SEM_DEFINE(name, count, limit)`. -/
structure KSem where
  count : Nat
  limit : Nat
  deriving DecidableEq, Repr

/-- The call `k_sem_give(&sem)`: the count goes up by one unless it is at the
limit. -/
def k_sem_give (sem : KSem) : KSem :=
  if sem.count < sem.limit then { sem with count := sem.count + 1 } else sem

/-- The call `k_sem_take(&sem, K_FOREVER)`: takes one unit; `none` while the
count is 0, when the caller stays blocked. -/
def k_sem_take (sem : KSem) : Option KSem :=
  if 0 < sem.count then some { sem with count := sem.count - 1 } else none

/-- The status `BT_HCI_ERR_SUCCESS` of the Bluetooth HCI. -/
def BT_HCI_ERR_SUCCESS : Nat := 0

/-- The level `BT_SECURITY_L2` (encryption, no authentication). -/
def BT_SECURITY_L2 : Nat := 2

/-- One step of a program: `main` runs its next statement (`ret` is the value
the library call of that statement returns, unused when it makes none), or the
stack invokes a callback. -/
inductive Label where
  | main (ret : Int)
  | cb (c : Callback)
  deriving DecidableEq, Repr

/-- The requests of the negotiation sequence. -/
inductive Req where
  | set_security
  | set_default_settings
  | read_remote_capabilities
  | create_config
  | security_enable
  | set_procedure_parameters
  | procedure_enable
  deriving DecidableEq, Repr

/-- The event is the request `r` being issued (with any return value). -/
def Ev.isReq : Req → Ev → Bool
  | .set_security, .call (.bt_conn_set_security _ _) _ => true
  | .set_default_settings, .call (.bt_le_cs_set_default_settings _ _ _) _ => true
  | .read_remote_capabilities, .call (.bt_le_cs_read_remote_supported_capabilities _) _ => true
  | .create_config, .call (.bt_le_cs_create_config _ _ _ _ _ _ _ _) _ => true
  | .security_enable, .call (.bt_le_cs_security_enable _) _ => true
  | .set_procedure_parameters,
      .call (.bt_le_cs_set_procedure_parameters _ _ _ _ _ _ _ _) _ => true
  | .procedure_enable, .call (.bt_le_cs_procedure_enable _ _ _) _ => true
  | _, _ => false

/-- The completion signals of the negotiation sequence. -/
inductive Sig where
  | connected
  | security
  | remote_capabilities
  | config_created
  | cs_security_enabled
  | procedure_parameters
  | procedure_enabled
  deriving DecidableEq, Repr

/-- The event is the completion signal `g` with success status: a callback
entered with status 0 or, for the procedure parameters, which have no
callback, the request returning 0. -/
def Ev.isOk : Sig → Ev → Bool
  | .connected, .enter (.connected _ err) => err == 0
  | .security, .enter (.security_changed _ _ err) => err == 0
  | .remote_capabilities, .enter (.remote_capabilities _ status) => status == BT_HCI_ERR_SUCCESS
  | .config_created, .enter (.config_create _ status _) => status == BT_HCI_ERR_SUCCESS
  | .cs_security_enabled, .enter (.security_enable _ status) => status == BT_HCI_ERR_SUCCESS
  | .procedure_parameters,
      .call (.bt_le_cs_set_procedure_parameters _ _ _ _ _ _ _ _) ret => ret == 0
  | .procedure_enabled, .enter (.procedure_enable _ status _) => status == BT_HCI_ERR_SUCCESS
  | _, _ => false

/-- In the trace `t`, every event satisfying `b` has an earlier event
satisfying `a`. -/
def Precedes (a b : Ev → Bool) (t : List Ev) : Prop :=
  ∀ pre e post, t = pre ++ e :: post → b e = true → ∃ x ∈ pre, a x = true

/-- The event is a request of the negotiation sequence. -/
def Ev.isAnyReq (e : Ev) : Bool :=
  e.isReq .set_security || e.isReq .set_default_settings ||
  e.isReq .read_remote_capabilities || e.isReq .create_config ||
  e.isReq .security_enable || e.isReq .set_procedure_parameters ||
  e.isReq .procedure_enable

/-- The event is a request of the negotiation sequence that returned an
error. -/
def Ev.isFailedReq : Ev → Bool
  | .call c ret => (Ev.call c ret).isAnyReq && ret != 0
  | _ => false

/-- The callback reports a failed step: a completion with a non-success
status. -/
def Callback.isFailure : Callback → Bool
  | .security_changed _ _ err => err != 0
  | .remote_capabilities _ status => status != BT_HCI_ERR_SUCCESS
  | .config_create _ status _ => status != BT_HCI_ERR_SUCCESS
  | .security_enable _ status => status != BT_HCI_ERR_SUCCESS
  | .procedure_enable _ status _ => status != BT_HCI_ERR_SUCCESS
  | _ => false

/-- In the trace `t`, no event satisfying `b` comes after an event satisfying
`a`. -/
def NoneAfter (a b : Ev → Bool) (t : List Ev) : Prop :=
  ∀ pre e post, t = pre ++ e :: post → a e = true → ∀ x ∈ post, b x = false

/-! ## The initiator, `cs_ini/main.c` -/

namespace cs_ini

/-- Position of `main`: the statement it executes next. -/
inductive PC where
  /-- lines 252-260: `dk_leds_init`, `bt_enable` -/
  | bt_enable
  /-- lines 262, 213-225: `scan_init` up to `bt_scan_filter_add` -/
  | scan_filter_add
  /-- lines 227-233, 263-266: `bt_scan_filter_enable`, end of `scan_init` -/
  | scan_filter_enable
  /-- lines 268-272: `bt_scan_start` -/
  | scan_start
  /-- line 274: `k_sem_take(&sem_connected, K_FOREVER)` -/
  | take_connected
  /-- lines 276-280: `bt_conn_set_security` -/
  | set_security
  /-- line 282: `k_sem_take(&sem_security, K_FOREVER)` -/
  | take_security
  /-- lines 284-295: `bt_le_cs_set_default_settings` -/
  | set_default_settings
  /-- lines 297-301: `bt_le_cs_read_remote_supported_capabilities` -/
  | read_remote_capabilities
  /-- line 303: `k_sem_take(&sem_remote_capabilities_obtained, K_FOREVER)` -/
  | take_remote_capabilities
  /-- lines 305-328: `bt_le_cs_set_valid_chmap_bits`, `bt_le_cs_create_config` -/
  | create_config
  /-- line 330: `k_sem_take(&sem_config_created, K_FOREVER)` -/
  | take_config_created
  /-- lines 332-336: `bt_le_cs_security_enable` -/
  | security_enable
  /-- line 338: `k_sem_take(&sem_cs_security_enabled, K_FOREVER)` -/
  | take_cs_security_enabled
  /-- lines 340-360: `bt_le_cs_set_procedure_parameters` -/
  | set_procedure_parameters
  /-- lines 362-373: `bt_le_cs_procedure_enable` -/
  | procedure_enable
  /-- lines 376-378: `k_sleep(K_FOREVER)`, from which `main` never wakes -/
  | idle
  /-- `main` has returned -/
  | returned
  deriving DecidableEq, Repr

/-- Order of the positions along `main`. -/
def PC.rank : PC → Nat
  | .bt_enable => 0
  | .scan_filter_add => 1
  | .scan_filter_enable => 2
  | .scan_start => 3
  | .take_connected => 4
  | .set_security => 5
  | .take_security => 6
  | .set_default_settings => 7
  | .read_remote_capabilities => 8
  | .take_remote_capabilities => 9
  | .create_config => 10
  | .take_config_created => 11
  | .security_enable => 12
  | .take_cs_security_enabled => 13
  | .set_procedure_parameters => 14
  | .procedure_enable => 15
  | .idle => 16
  | .returned => 17

/-- The variables of the program: the position of `main`, the five
semaphores of lines 17-21 and the global `connection` of line 23. -/
structure Vars where
  pc : PC
  sem_remote_capabilities_obtained : KSem
  sem_config_created : KSem
  sem_cs_security_enabled : KSem
  sem_connected : KSem
  sem_security : KSem
  connection : Option Conn
  deriving DecidableEq, Repr

/-- The state of the system: the variables, the events since the last boot
and the events of the earlier boots. -/
structure State where
  vars : Vars
  trace : List Ev
  past : List Ev
  deriving DecidableEq, Repr

/-- The variables at boot: `main` at its start, every semaphore
`K_SEM_DEFINE(_, 0, 1)`, `connection` zero-initialised. -/
def bootVars : Vars :=
  { pc := .bt_enable,
    sem_remote_capabilities_obtained := ⟨0, 1⟩,
    sem_config_created := ⟨0, 1⟩,
    sem_cs_security_enabled := ⟨0, 1⟩,
    sem_connected := ⟨0, 1⟩,
    sem_security := ⟨0, 1⟩,
    connection := none }

/-- The state at the first boot. -/
def boot : State := { vars := bootVars, trace := [], past := [] }

/-- Append events to the trace. -/
def State.emit (s : State) (evs : List Ev) : State :=
  { s with trace := s.trace ++ evs }

/-- Move `main` to a position. -/
def State.goto (s : State) (pc : PC) : State :=
  { s with vars := { s.vars with pc := pc } }

/-- The call `sys_reboot(SYS_REBOOT_COLD)`: it does not return; the system
starts again with every variable at its boot value. -/
def sys_reboot (s : State) : State :=
  { vars := bootVars, trace := [], past := s.past ++ s.trace ++ [.call (.sys_reboot true) 0] }

/-- Lines 51-65. -/
def security_changed (conn : Conn) (level err : Nat) (s : State) : State :=
  if err ≠ 0 then
    s.emit [.log .ERR "Security failed: %s level %u err %d %s"
      [.addr conn, .num level, .num err, .secerr err]]
  else
    let s := s.emit [.log .INF "Security changed: %s level %u" [.addr conn, .num level]]
    { s with vars := { s.vars with sem_security := k_sem_give s.vars.sem_security } }

/-- Lines 67-71: returns `false`, touches nothing. -/
def le_param_req (_conn : Conn) (s : State) : State := s

/-- Lines 73-88. -/
def connected_cb (conn : Conn) (err : Nat) (s : State) : State :=
  let s := s.emit [.log .INF "Connected to %s (err 0x%02X)" [.addr conn, .num err]]
  if err ≠ 0 then
    let s := s.emit [.call (.bt_conn_unref conn) 0]
    { s with vars := { s.vars with connection := none } }
  else
    let s := s.emit [.call (.bt_conn_ref conn) 0]
    let s := { s with vars := { s.vars with connection := some conn } }
    let s := { s with vars := { s.vars with sem_connected := k_sem_give s.vars.sem_connected } }
    s.emit [.call .dk_set_led_on 0]

/-- Lines 90-99. -/
def disconnected_cb (conn : Conn) (reason : Nat) (s : State) : State :=
  let s := s.emit [.log .INF "Disconnected (reason 0x%02X)" [.num reason]]
  let s := s.emit [.call (.bt_conn_unref conn) 0]
  let s := { s with vars := { s.vars with connection := none } }
  let s := s.emit [.call .dk_set_led_off 0]
  sys_reboot s

/-- Lines 101-114. -/
def remote_capabilities_cb (_conn : Conn) (status : Nat) (s : State) : State :=
  if status = BT_HCI_ERR_SUCCESS then
    let s := s.emit [.log .INF "CS capability exchange completed." []]
    { s with vars := { s.vars with
        sem_remote_capabilities_obtained := k_sem_give s.vars.sem_remote_capabilities_obtained } }
  else
    s.emit [.log .WRN "CS capability exchange failed. (HCI status 0x%02x)" [.num status]]

/-- Lines 116-137. -/
def config_create_cb (_conn : Conn) (status : Nat) (config : bt_conn_le_cs_config)
    (s : State) : State :=
  if status = BT_HCI_ERR_SUCCESS then
    let s := s.emit
      [ .log .INF "CS config creation complete." [],
        .log .INF " - id: %u" [.num config.id],
        .log .INF " - mode: %u (Mode-2: PBR)" [.num config.mode],
        .log .INF " - min_main_mode_steps: %u" [.num config.min_main_mode_steps],
        .log .INF " - max_main_mode_steps: %u" [.num config.max_main_mode_steps],
        .log .INF " - main_mode_repetition: %u" [.num config.main_mode_repetition],
        .log .INF " - mode_0_steps: %u" [.num config.mode_0_steps],
        .log .INF " - role: %u (Initiator)" [.num config.role],
        .log .INF " - cs_sync_phy: %u" [.num config.cs_sync_phy],
        .log .INF " - channel_selection_type: %u" [.num config.channel_selection_type] ]
    { s with vars := { s.vars with sem_config_created := k_sem_give s.vars.sem_config_created } }
  else
    s.emit [.log .WRN "CS config creation failed. (HCI status 0x%02x)" [.num status]]

/-- Lines 139-149. -/
def security_enable_cb (_conn : Conn) (status : Nat) (s : State) : State :=
  if status = BT_HCI_ERR_SUCCESS then
    let s := s.emit [.log .INF "CS security enabled." []]
    { s with vars := { s.vars with
        sem_cs_security_enabled := k_sem_give s.vars.sem_cs_security_enabled } }
  else
    s.emit [.log .WRN "CS security enable failed. (HCI status 0x%02x)" [.num status]]

/-- Lines 151-177. -/
def procedure_enable_cb (_conn : Conn) (status : Nat)
    (params : bt_conn_le_cs_procedure_enable_complete) (s : State) : State :=
  if status = BT_HCI_ERR_SUCCESS then
    if params.state = 1 then
      s.emit
        [ .log .INF "CS procedures enabled:" [],
          .log .INF " - config ID: %u" [.num params.config_id],
          .log .INF " - antenna configuration index: %u"
            [.num params.tone_antenna_config_selection],
          .log .INF " - TX power: %d dBm" [.num params.selected_tx_power],
          .log .INF " - subevent length: %u us" [.num params.subevent_len],
          .log .INF " - subevents per event: %u" [.num params.subevents_per_event],
          .log .INF " - subevent interval: %u" [.num params.subevent_interval],
          .log .INF " - event interval: %u" [.num params.event_interval],
          .log .INF " - procedure interval: %u" [.num params.procedure_interval],
          .log .INF " - procedure count: %u" [.num params.procedure_count],
          .log .INF " - maximum procedure length: %u" [.num params.max_procedure_len] ]
    else
      s.emit [.log .INF "CS procedures disabled." []]
  else
    s.emit [.log .WRN "CS procedures enable failed. (HCI status 0x%02x)" [.num status]]

/-- Lines 179-187. -/
def scan_filter_match (dev : Nat) (connectable : Bool) (s : State) : State :=
  s.emit [.log .INF "Filters matched. Address: %s connectable: %d"
    [.devaddr dev, .num (if connectable then 1 else 0)]]

/-- Lines 189-200; `ret` is what `bt_scan_start` returns. -/
def scan_connecting_error (_dev : Nat) (ret : Int) (s : State) : State :=
  let s := s.emit [.log .INF "Connecting failed, restarting scanning" []]
  let s := s.emit [.call .bt_scan_start ret]
  if ret ≠ 0 then s.emit [.log .ERR "Failed to restart scanning (err %i)" [.num ret]] else s

/-- Lines 202-205. -/
def scan_connecting (_dev : Nat) (_conn : Conn) (s : State) : State :=
  s.emit [.log .INF "Connecting" []]

/-- The callbacks registered in lines 207 and 236-246. The subevent callback
runs on a 32-bit `size_t` with fuel for any `uint16_t` length. -/
def callback : Callback → State → Option State
  | .connected conn err, s => some (connected_cb conn err s)
  | .disconnected conn reason, s => some (disconnected_cb conn reason s)
  | .le_param_req conn, s => some (le_param_req conn s)
  | .security_changed conn level err, s => some (security_changed conn level err s)
  | .remote_capabilities conn status, s => some (remote_capabilities_cb conn status s)
  | .config_create conn status config, s => some (config_create_cb conn status config s)
  | .security_enable conn status, s => some (security_enable_cb conn status s)
  | .procedure_enable conn status params, s => some (procedure_enable_cb conn status params s)
  | .subevent_result conn result, s =>
    match subevent_result_cb 32 4112 conn result with
    | .ok out => some (s.emit out)
    | .error _ => none
  | .scan_filter_match dev connectable, s => some (scan_filter_match dev connectable s)
  | .scan_connecting_error dev ret, s => some (scan_connecting_error dev ret s)
  | .scan_connecting dev conn, s => some (scan_connecting dev conn s)

/-- A statement `err = f(...); if (err) { LOG_ERR(msg, err); return 0; }` of
`main`, followed by the position `next`. -/
def request (s : State) (c : Call) (ret : Int) (msg : String) (next : PC) : State :=
  let s := s.emit [.call c ret]
  if ret ≠ 0 then (s.emit [.log .ERR msg [.num ret]]).goto .returned else s.goto next

/-- One statement of `main`, lines 248-381; `none` when `main` is blocked or
has returned. -/
def main_step (ret : Int) (s : State) : Option State :=
  match s.vars.pc with
  | .bt_enable =>
    let s := s.emit [.log .INF "Starting Simple Channel Sounding Initiator Sample" [],
      .call .dk_leds_init 0]
    some (request s .bt_enable ret "Bluetooth init failed (err %d)" .scan_filter_add)
  | .scan_filter_add =>
    let s := s.emit [.call .bt_scan_init 0, .call .bt_scan_cb_register 0, .call .bt_scan_filter_add ret]
    if ret ≠ 0 then
      some ((s.emit [.log .ERR "Scanning filters cannot be set (err %d)" [.num ret],
        .log .ERR "Scan init failed (err %d)" [.num ret]]).goto .returned)
    else some (s.goto .scan_filter_enable)
  | .scan_filter_enable =>
    let s := s.emit [.call .bt_scan_filter_enable ret]
    if ret ≠ 0 then
      some ((s.emit [.log .ERR "Filters cannot be turned on (err %d)" [.num ret],
        .log .ERR "Scan init failed (err %d)" [.num ret]]).goto .returned)
    else some (s.goto .scan_start)
  | .scan_start =>
    some (request s .bt_scan_start ret "Scanning failed to start (err %i)" .take_connected)
  | .take_connected =>
    (k_sem_take s.vars.sem_connected).map fun sem =>
      { s with vars := { s.vars with sem_connected := sem, pc := .set_security } }
  | .set_security =>
    some (request s (.bt_conn_set_security s.vars.connection BT_SECURITY_L2) ret
      "Failed to encrypt connection (err %d)" .take_security)
  | .take_security =>
    (k_sem_take s.vars.sem_security).map fun sem =>
      { s with vars := { s.vars with sem_security := sem, pc := .set_default_settings } }
  | .set_default_settings =>
    some (request s (.bt_le_cs_set_default_settings s.vars.connection true false) ret
      "Failed to configure default CS settings (err %d)" .read_remote_capabilities)
  | .read_remote_capabilities =>
    some (request s (.bt_le_cs_read_remote_supported_capabilities s.vars.connection) ret
      "Failed to exchange CS capabilities (err %d)" .take_remote_capabilities)
  | .take_remote_capabilities =>
    (k_sem_take s.vars.sem_remote_capabilities_obtained).map fun sem =>
      { s with vars := { s.vars with
          sem_remote_capabilities_obtained := sem, pc := .create_config } }
  | .create_config =>
    let s := s.emit [.call .bt_le_cs_set_valid_chmap_bits 0]
    some (request s (.bt_le_cs_create_config s.vars.connection 0 2 5 0 3 1 2) ret
      "Failed to create CS config (err %d)" .take_config_created)
  | .take_config_created =>
    (k_sem_take s.vars.sem_config_created).map fun sem =>
      { s with vars := { s.vars with sem_config_created := sem, pc := .security_enable } }
  | .security_enable =>
    some (request s (.bt_le_cs_security_enable s.vars.connection) ret
      "Failed to start CS Security (err %d)" .take_cs_security_enabled)
  | .take_cs_security_enabled =>
    (k_sem_take s.vars.sem_cs_security_enabled).map fun sem =>
      { s with vars := { s.vars with
          sem_cs_security_enabled := sem, pc := .set_procedure_parameters } }
  | .set_procedure_parameters =>
    some (request s
      (.bt_le_cs_set_procedure_parameters s.vars.connection 0 1000 10 10 0 16000 16000) ret
      "Failed to set procedure parameters (err %d)" .procedure_enable)
  | .procedure_enable =>
    let s := request s (.bt_le_cs_procedure_enable s.vars.connection 0 1) ret
      "Failed to enable CS procedures (err %d)" .idle
    if ret ≠ 0 then some s
    else some (s.emit [.log .INF "CS procedures started. Waiting for results..." []])
  | .idle => none
  | .returned => none

/-- One step of the system. -/
def step (s : State) : Label → Option State
  | .main ret => main_step ret s
  | .cb c => callback c (s.emit [.enter c])

/-- A run: the steps of a list of labels, in order. -/
def run (s : State) : List Label → Option State
  | [] => some s
  | l :: ls => (step s l).bind fun s' => run s' ls

end cs_ini

/-! ## The reflector, `cs_ref/main.c` -/

namespace cs_ref

/-- Position of `main`: the statement it executes next. -/
inductive PC where
  /-- lines 175-183: `dk_leds_init`, `bt_enable` -/
  | bt_enable
  /-- lines 185-195: `settings_load` when configured, `bt_le_adv_start` -/
  | adv_start
  /-- line 198: `k_sem_take(&sem_connected, K_FOREVER)`, the loop head -/
  | take_connected
  /-- lines 200-210: `bt_le_cs_set_default_settings` -/
  | set_default_settings
  /-- line 212: `k_sem_take(&sem_config, K_FOREVER)` -/
  | take_config
  /-- lines 214-236: `bt_le_cs_set_procedure_parameters` -/
  | set_procedure_parameters
  /-- `main` has returned -/
  | returned
  deriving DecidableEq, Repr

/-- The variables of the program: the position of `main`, the two semaphores
of lines 18-19 and the global `connection` of line 21. -/
structure Vars where
  pc : PC
  sem_connected : KSem
  sem_config : KSem
  connection : Option Conn
  deriving DecidableEq, Repr

/-- The state of the system: the variables, the events since the last boot
and the events of the earlier boots. -/
structure State where
  vars : Vars
  trace : List Ev
  past : List Ev
  deriving DecidableEq, Repr

/-- The variables at boot: `main` at its start, both semaphores
`K_SEM_DEFINE(_, 0, 1)`, `connection` zero-initialised. -/
def bootVars : Vars :=
  { pc := .bt_enable, sem_connected := ⟨0, 1⟩, sem_config := ⟨0, 1⟩, connection := none }

/-- The state at the first boot. -/
def boot : State := { vars := bootVars, trace := [], past := [] }

/-- Append events to the trace. -/
def State.emit (s : State) (evs : List Ev) : State :=
  { s with trace := s.trace ++ evs }

/-- Move `main` to a position. -/
def State.goto (s : State) (pc : PC) : State :=
  { s with vars := { s.vars with pc := pc } }

/-- The call `sys_reboot(SYS_REBOOT_COLD)`: it does not return; the system
starts again with every variable at its boot value. -/
def sys_reboot (s : State) : State :=
  { vars := bootVars, trace := [], past := s.past ++ s.trace ++ [.call (.sys_reboot true) 0] }

/-- Lines 54-71. -/
def connected_cb (conn : Conn) (err : Nat) (s : State) : State :=
  let s := s.emit [.log .INF "Connected to %s (err 0x%02X)" [.addr conn, .num err]]
  if err ≠ 0 then
    let s := s.emit [.call (.bt_conn_unref conn) 0]
    { s with vars := { s.vars with connection := none } }
  else
    let s := s.emit [.call (.bt_conn_ref conn) 0]
    let s := { s with vars := { s.vars with connection := some conn } }
    let s := { s with vars := { s.vars with sem_connected := k_sem_give s.vars.sem_connected } }
    s.emit [.call .dk_set_led_on 0]

/-- Lines 73-83. -/
def disconnected_cb (conn : Conn) (reason : Nat) (s : State) : State :=
  let s := s.emit [.log .INF "Disconnected (reason 0x%02X)" [.num reason]]
  let s := s.emit [.call (.bt_conn_unref conn) 0]
  let s := { s with vars := { s.vars with connection := none } }
  let s := s.emit [.call .dk_set_led_off 0]
  sys_reboot s

/-- Lines 85-97. -/
def remote_capabilities_cb (_conn : Conn) (status : Nat) (s : State) : State :=
  if status = BT_HCI_ERR_SUCCESS then
    s.emit [.log .INF "CS capability exchange completed." []]
  else
    s.emit [.log .WRN "CS capability exchange failed. (HCI status 0x%02x)" [.num status]]

/-- Lines 99-120. -/
def config_create_cb (_conn : Conn) (status : Nat) (config : bt_conn_le_cs_config)
    (s : State) : State :=
  if status = BT_HCI_ERR_SUCCESS then
    let s := s.emit
      [ .log .INF "CS config creation complete." [],
        .log .INF " - id: %u" [.num config.id],
        .log .INF " - mode: %u (Mode-2: PBR)" [.num config.mode],
        .log .INF " - min_main_mode_steps: %u" [.num config.min_main_mode_steps],
        .log .INF " - max_main_mode_steps: %u" [.num config.max_main_mode_steps],
        .log .INF " - main_mode_repetition: %u" [.num config.main_mode_repetition],
        .log .INF " - mode_0_steps: %u" [.num config.mode_0_steps],
        .log .INF " - role: %u (Reflector)" [.num config.role],
        .log .INF " - cs_sync_phy: %u" [.num config.cs_sync_phy],
        .log .INF " - channel_selection_type: %u" [.num config.channel_selection_type] ]
    { s with vars := { s.vars with sem_config := k_sem_give s.vars.sem_config } }
  else
    s.emit [.log .WRN "CS config creation failed. (HCI status 0x%02x)" [.num status]]

/-- Lines 122-131. -/
def security_enable_cb (_conn : Conn) (status : Nat) (s : State) : State :=
  if status = BT_HCI_ERR_SUCCESS then
    s.emit [.log .INF "CS security enabled." []]
  else
    s.emit [.log .WRN "CS security enable failed. (HCI status 0x%02x)" [.num status]]

/-- Lines 133-159. -/
def procedure_enable_cb (_conn : Conn) (status : Nat)
    (params : bt_conn_le_cs_procedure_enable_complete) (s : State) : State :=
  if status = BT_HCI_ERR_SUCCESS then
    if params.state = 1 then
      s.emit
        [ .log .INF "CS procedures enabled:" [],
          .log .INF " - config ID: %u" [.num params.config_id],
          .log .INF " - antenna configuration index: %u"
            [.num params.tone_antenna_config_selection],
          .log .INF " - TX power: %d dBm" [.num params.selected_tx_power],
          .log .INF " - subevent length: %u us" [.num params.subevent_len],
          .log .INF " - subevents per event: %u" [.num params.subevents_per_event],
          .log .INF " - subevent interval: %u" [.num params.subevent_interval],
          .log .INF " - event interval: %u" [.num params.event_interval],
          .log .INF " - procedure interval: %u" [.num params.procedure_interval],
          .log .INF " - procedure count: %u" [.num params.procedure_count],
          .log .INF " - maximum procedure length: %u" [.num params.max_procedure_len] ]
    else
      s.emit [.log .INF "CS procedures disabled." []]
  else
    s.emit [.log .WRN "CS procedures enable failed. (HCI status 0x%02x)" [.num status]]

/-- The callbacks registered in lines 161-169; the stack invokes no other.
The subevent callback runs on a 32-bit `size_t` with fuel for any `uint16_t`
length. -/
def callback : Callback → State → Option State
  | .connected conn err, s => some (connected_cb conn err s)
  | .disconnected conn reason, s => some (disconnected_cb conn reason s)
  | .remote_capabilities conn status, s => some (remote_capabilities_cb conn status s)
  | .config_create conn status config, s => some (config_create_cb conn status config s)
  | .security_enable conn status, s => some (security_enable_cb conn status s)
  | .procedure_enable conn status params, s => some (procedure_enable_cb conn status params s)
  | .subevent_result conn result, s =>
    match subevent_result_cb 32 4112 conn result with
    | .ok out => some (s.emit out)
    | .error _ => none
  | _, _ => none

/-- One statement of `main`, lines 171-240; `none` when `main` is blocked or
has returned. `bt_settings` is the build option `CONFIG_BT_SETTINGS`. -/
def main_step (bt_settings : Bool) (ret : Int) (s : State) : Option State :=
  match s.vars.pc with
  | .bt_enable =>
    let s := s.emit [.log .INF "Starting Simple Channel Sounding Reflector Sample" [],
      .call .dk_leds_init 0, .call .bt_enable ret]
    if ret ≠ 0 then
      some ((s.emit [.log .ERR "Bluetooth init failed (err %d)" [.num ret]]).goto .returned)
    else some (s.goto .adv_start)
  | .adv_start =>
    let s := if bt_settings then s.emit [.call .settings_load 0] else s
    let s := s.emit [.call .bt_le_adv_start ret]
    if ret ≠ 0 then
      some ((s.emit [.log .ERR "Advertising failed to start (err %d)" [.num ret]]).goto .returned)
    else
      some ((s.emit [.log .INF "Advertising started. Waiting for connection..." []]).goto
        .take_connected)
  | .take_connected =>
    (k_sem_take s.vars.sem_connected).map fun sem =>
      { s with vars := { s.vars with sem_connected := sem, pc := .set_default_settings } }
  | .set_default_settings =>
    let s := s.emit [.call (.bt_le_cs_set_default_settings s.vars.connection false true) ret]
    let s :=
      if ret ≠ 0 then
        s.emit [.log .ERR "Failed to configure default CS settings (err %d)" [.num ret]]
      else s
    some (s.goto .take_config)
  | .take_config =>
    (k_sem_take s.vars.sem_config).map fun sem =>
      { s with vars := { s.vars with sem_config := sem, pc := .set_procedure_parameters } }
  | .set_procedure_parameters =>
    let s := s.emit
      [.call (.bt_le_cs_set_procedure_parameters s.vars.connection 0 1000 1 100 0 10000 75000)
        ret]
    if ret ≠ 0 then
      some ((s.emit [.log .ERR "Failed to set procedure parameters (err %d)" [.num ret]]).goto
        .returned)
    else
      some ((s.emit [.log .INF "CS procedures configured. Waiting for results..." []]).goto
        .take_connected)
  | .returned => none

/-- One step of the system. -/
def step (bt_settings : Bool) (s : State) : Label → Option State
  | .main ret => main_step bt_settings ret s
  | .cb c => callback c (s.emit [.enter c])

/-- A run: the steps of a list of labels, in order. -/
def run (bt_settings : Bool) (s : State) : List Label → Option State
  | [] => some s
  | l :: ls => (step bt_settings s l).bind fun s' => run bt_settings s' ls

end cs_ref

/-! ## Invariants of the initiator -/

/-- The signal whose success the request `r` of the initiator waits for. -/
def Req.after : Req → Sig
  | .set_security => .connected
  | .set_default_settings => .security
  | .read_remote_capabilities => .security
  | .create_config => .remote_capabilities
  | .security_enable => .config_created
  | .set_procedure_parameters => .cs_security_enabled
  | .procedure_enable => .procedure_parameters

namespace cs_ini

/-- The signal `g` has been raised and not yet consumed, or `main` is past the
wait for it. -/
def signalled (g : Sig) (v : Vars) : Prop :=
  match g with
  | .connected =>
    0 < v.sem_connected.count ∨ (PC.rank .take_connected < v.pc.rank ∧ v.pc ≠ .returned)
  | .security =>
    0 < v.sem_security.count ∨ (PC.rank .take_security < v.pc.rank ∧ v.pc ≠ .returned)
  | .remote_capabilities =>
    0 < v.sem_remote_capabilities_obtained.count ∨
      (PC.rank .take_remote_capabilities < v.pc.rank ∧ v.pc ≠ .returned)
  | .config_created =>
    0 < v.sem_config_created.count ∨
      (PC.rank .take_config_created < v.pc.rank ∧ v.pc ≠ .returned)
  | .cs_security_enabled =>
    0 < v.sem_cs_security_enabled.count ∨
      (PC.rank .take_cs_security_enabled < v.pc.rank ∧ v.pc ≠ .returned)
  | .procedure_parameters => v.pc = .procedure_enable
  | .procedure_enabled => False

/-- Ordering invariant: a raised signal has its success event in the trace,
and every request in the trace comes after the success it waits for. -/
def Inv (s : State) : Prop :=
  (∀ g, signalled g s.vars → s.trace.any (Ev.isOk g) = true) ∧
  ∀ r : Req, Precedes (Ev.isOk r.after) (Ev.isReq r) s.trace

/-- The position at which `main` issues the request `r`. -/
def reqPC : Req → PC
  | .set_security => .set_security
  | .set_default_settings => .set_default_settings
  | .read_remote_capabilities => .read_remote_capabilities
  | .create_config => .create_config
  | .security_enable => .security_enable
  | .set_procedure_parameters => .set_procedure_parameters
  | .procedure_enable => .procedure_enable

/-- Fatality invariant: a request in the trace lies behind `main` and is in
the trace once; after a failed request `main` has returned and the trace holds
no later request. -/
def InvFatal (s : State) : Prop :=
  (∀ r : Req, s.trace.any (Ev.isReq r) = true → (reqPC r).rank < s.vars.pc.rank) ∧
  (∀ r : Req, s.trace.countP (Ev.isReq r) ≤ 1) ∧
  (s.trace.any Ev.isFailedReq = true → s.vars.pc = .returned) ∧
  NoneAfter Ev.isFailedReq Ev.isAnyReq s.trace

end cs_ini

/-! ## Invariant of the reflector -/

namespace cs_ref

/-- Ordering invariant of the reflector. -/
def Inv (s : State) : Prop :=
  ((0 < s.vars.sem_connected.count ∨ s.vars.pc = .set_default_settings) →
    s.trace.any (Ev.isOk .connected) = true) ∧
  ((0 < s.vars.sem_config.count ∨ s.vars.pc = .set_procedure_parameters) →
    s.trace.any (Ev.isOk .config_created) = true) ∧
  Precedes (Ev.isOk .connected) (Ev.isReq .set_default_settings) s.trace ∧
  Precedes (Ev.isOk .config_created) (Ev.isReq .set_procedure_parameters) s.trace

/-- Prefix the events of earlier boots. -/
def State.withPast (p : List Ev) (s : State) : State :=
  { s with past := p ++ s.past }

end cs_ref

/-! ## Reference rendering of the hex dump -/

/-- The events of one hex-dump line carrying the bytes `c`. -/
def lineEvents (c : List Nat) : List Ev :=
  .printk "  " [] :: (c.map fun (b : Nat) => Ev.printk "%02x" [.num (b : Int)]) ++ [.printk "\n" []]

/-- The text of one hex-dump line carrying the bytes `c`, without its
newline. -/
def lineText (c : List Nat) : List Char :=
  ' ' :: ' ' :: c.flatMap fun b => fmt_02x b

/-- The first `n` groups of 16 bytes of `bytes` from offset `i`. -/
def chunksFrom (bytes : List Nat) : Nat → Nat → List (List Nat)
  | 0, _ => []
  | n + 1, i => (bytes.drop i).take 16 :: chunksFrom bytes n (i + 16)

/-- The format strings of the eight header fields. -/
def headerFormats : List String :=
  [ " - Procedure counter: %u", " - Procedure done status: %u",
    " - Subevent done status: %u", " - Procedure abort reason: %u",
    " - Subevent abort reason: %u", " - Reference power level: %d",
    " - Num antenna paths: %u", " - Num steps reported: %u" ]

/-- A 20-byte buffer in a 24-byte storage. -/
def buf20 : net_buf_simple :=
  { data := [0, 13, 26, 39, 52, 65, 78, 91, 104, 117, 130, 143, 156, 169, 182, 195,
             208, 221, 234, 247, 1, 2, 3, 4],
    len := 20 }

/-- A Subevent Result carrying `buf20`. -/
def result20 : bt_conn_le_cs_subevent_result :=
  { header := ⟨7, 0, 0, 15, 15, -6, 1, 4⟩, step_data_buf := some buf20 }

/-- A Subevent Result whose buffer pointer is null. -/
def resultNull : bt_conn_le_cs_subevent_result :=
  { header := ⟨7, 0, 0, 15, 15, -6, 1, 4⟩, step_data_buf := none }

/-- The event is text output: a log record or a `printk`. -/
def Ev.isText : Ev → Bool
  | .log _ _ _ => true
  | .printk _ _ => true
  | _ => false

/-- A run of the initiator up to the config-creation request. -/
def iniRun : List Label :=
  [.main 0, .main 0, .main 0, .main 0, .cb (.connected 5 0), .main 0, .main 0,
   .cb (.security_changed 5 2 0), .main 0, .main 0, .main 0,
   .cb (.remote_capabilities 5 0), .main 0, .main 0]

/-- A run of the initiator in which the set-security request fails. -/
def iniFailRun : List Label :=
  [.main 0, .main 0, .main 0, .main 0, .cb (.connected 5 0), .main 0, .main (-5)]

/-- The event is a call of `sys_reboot`. -/
def Ev.isReboot : Ev → Bool
  | .call (.sys_reboot _) _ => true
  | _ => false

/-- A run of the reflector through one connection, up to the loop head. -/
def refRun : List Label :=
  [.main 0, .main 0, .cb (.connected 7 0), .main 0, .main 0,
   .cb (.config_create 7 0 ⟨0, 2, 2, 5, 0, 3, 1, 1, 0⟩), .main 0,
   .cb (.config_create 7 0 ⟨0, 2, 2, 5, 0, 3, 1, 1, 0⟩), .main 0]

/-- A run of the reflector in which the procedure-parameter request fails. -/
def refFailRun : List Label :=
  [.main 0, .main 0, .cb (.connected 7 0), .main 0, .main 0,
   .cb (.config_create 7 0 ⟨0, 2, 2, 5, 0, 3, 1, 1, 0⟩), .main 0, .main (-22)]

/-- The reflector about to request the default settings. -/
def refAtDefault : cs_ref.State :=
  (cs_ref.run true cs_ref.boot [.main 0, .main 0, .cb (.connected 7 0), .main 0]).getD cs_ref.boot

/-- The initiator after `iniRun`: blocked on `sem_config_created`. -/
def iniWaitConfig : cs_ini.State :=
  (cs_ini.run cs_ini.boot iniRun).getD cs_ini.boot

/-- The Config Record of the scenario: id 0, mode 2 (PBR), 2 to 5 main-mode
steps, 3 mode-0 steps, initiator role. -/
def cfgExample : bt_conn_le_cs_config :=
  { id := 0, mode := 2, min_main_mode_steps := 2, max_main_mode_steps := 5,
    main_mode_repetition := 0, mode_0_steps := 3, role := 0, cs_sync_phy := 1,
    channel_selection_type := 0 }

/-- A second Config Record, differing from `cfgExample` in every step count. -/
def cfgOther : bt_conn_le_cs_config :=
  { id := 1, mode := 2, min_main_mode_steps := 3, max_main_mode_steps := 7,
    main_mode_repetition := 1, mode_0_steps := 1, role := 0, cs_sync_phy := 1,
    channel_selection_type := 0 }


/-! ## The hex-dump loops with their counter arithmetic and reads recorded -/

/-- The inner loop of `subevent_result_cb` as `hexdump_inner`, returning with
the events the index of every read `data[i + j]`, in order. -/
def hexdump_inner_log (w : Nat) (buf : net_buf_simple) (i : Nat) :
    Nat → Nat → Except Fault (List Ev × List Nat)
  | 0, _ => .error .fuel
  | fuel + 1, j =>
    if j < 16 ∧ (i + j) % 2 ^ w < buf.len then
      match buf.data[(i + j) % 2 ^ w]? with
      | none => .error (.read ((i + j) % 2 ^ w))
      | some b =>
        match hexdump_inner_log w buf i fuel ((j + 1) % 2 ^ w) with
        | .error e => .error e
        | .ok (rest, reads) =>
          .ok (.printk "%02x" [.num b] :: rest, (i + j) % 2 ^ w :: reads)
    else .ok ([], [])

/-- The outer loop of `subevent_result_cb` as `hexdump_outer`, returning with
the events the index of every read and, for every update `i += 16`, the exact
sum `i + 16` before its reduction to `w` bits. -/
def hexdump_outer_log (w : Nat) (buf : net_buf_simple) (fuel : Nat) :
    Nat → Nat → Except Fault (List Ev × List Nat × List Nat)
  | 0, _ => .error .fuel
  | n + 1, i =>
    if i < buf.len then
      match hexdump_inner_log w buf i fuel 0 with
      | .error e => .error e
      | .ok (line, reads) =>
        match hexdump_outer_log w buf fuel n ((i + 16) % 2 ^ w) with
        | .error e => .error e
        | .ok (rest, reads', sums) =>
          .ok (.printk "  " [] :: line ++ .printk "\n" [] :: rest, reads ++ reads',
            (i + 16) :: sums)
    else .ok ([], [], [])

/-- A buffer of the largest `uint16_t` length, 65535 bytes. -/
def bufMax : net_buf_simple :=
  { data := List.replicate 65535 171, len := 65535 }

/-! ## Lemmas on rendering and parsing -/

theorem toDigits16_byte (b : Nat) (h : b < 256) :
    Nat.toDigits 16 b =
      if b < 16 then [Nat.digitChar b] else [Nat.digitChar (b / 16), Nat.digitChar (b % 16)] := by
  interval_cases b <;> rfl

theorem fmt_02x_byte (b : Nat) (h : b < 256) :
    fmt_02x (b : Int) = [Nat.digitChar (b / 16), Nat.digitChar (b % 16)] := by
  have hb : ((b : Int) % 4294967296).toNat = b := by omega
  unfold fmt_02x
  rw [hb, toDigits16_byte b h]
  by_cases h16 : b < 16
  · have h0 : b / 16 = 0 := by omega
    have h1 : b % 16 = b := by omega
    simp [h16, h0, h1, zeroPad]
    rfl
  · simp [h16, zeroPad]

theorem hexVal_digitChar (d : Nat) (h : d < 16) : hexVal (Nat.digitChar d) = some d := by
  interval_cases d <;> rfl

theorem digitChar_ne_newline (d : Nat) (h : d < 16) : Nat.digitChar d ≠ '\n' := by
  interval_cases d <;> decide

theorem parseHexBytes_render (c : List Nat) (hc : ∀ b ∈ c, b < 256) :
    parseHexBytes (c.flatMap fun b => fmt_02x b) = some c := by
  induction c with
  | nil => rfl
  | cons b c ih =>
    have hb : b < 256 := hc b (List.mem_cons_self _ _)
    have ih := ih (fun x hx => hc x (List.mem_cons_of_mem _ hx))
    have h1 : b / 16 < 16 := by omega
    have h2 : b % 16 < 16 := by omega
    have h3 : 16 * (b / 16) + b % 16 = b := by omega
    simp only [List.flatMap_cons, fmt_02x_byte b hb, List.cons_append, List.nil_append,
      parseHexBytes, hexVal_digitChar _ h1, hexVal_digitChar _ h2, ih, h3]

theorem parseHexLine_lineText (c : List Nat) (hc : ∀ b ∈ c, b < 256) :
    parseHexLine (lineText c) = some c := by
  simp only [lineText, parseHexLine]
  exact parseHexBytes_render c hc

theorem lineText_length (c : List Nat) (hc : ∀ b ∈ c, b < 256) :
    (lineText c).length = 2 + 2 * c.length := by
  induction c with
  | nil => rfl
  | cons b c ih =>
    have hb : b < 256 := hc b (List.mem_cons_self _ _)
    have ih := ih (fun x hx => hc x (List.mem_cons_of_mem _ hx))
    simp only [lineText, List.flatMap_cons, fmt_02x_byte b hb, List.length_cons,
      List.cons_append, List.nil_append] at ih ⊢
    omega

theorem lineText_no_newline (c : List Nat) (hc : ∀ b ∈ c, b < 256) :
    '\n' ∉ lineText c := by
  induction c with
  | nil => decide
  | cons b c ih =>
    have hb : b < 256 := hc b (List.mem_cons_self _ _)
    have ih := ih (fun x hx => hc x (List.mem_cons_of_mem _ hx))
    have h1 := digitChar_ne_newline (b / 16) (by omega)
    have h2 := digitChar_ne_newline (b % 16) (by omega)
    simp only [lineText, List.flatMap_cons, fmt_02x_byte b hb, List.mem_cons,
      List.cons_append, List.nil_append, not_or] at ih ⊢
    exact ⟨ih.1, ih.2.1, h1.symm, h2.symm, ih.2.2⟩

theorem splitLinesAux_line (l rest cur : List Char) (hl : '\n' ∉ l) :
    splitLinesAux (l ++ '\n' :: rest) cur = (cur.reverse ++ l) :: splitLinesAux rest [] := by
  induction l generalizing cur with
  | nil => simp [splitLinesAux]
  | cons c l ih =>
    have hc : c ≠ '\n' := fun h => hl (by simp [h])
    have hl2 : '\n' ∉ l := fun h => hl (List.mem_cons_of_mem _ h)
    simp [splitLinesAux, hc, ih _ hl2]

theorem printkText_append (a b : List Ev) :
    printkText (a ++ b) = printkText a ++ printkText b := by
  induction a with
  | nil => rfl
  | cons e a ih => cases e <;> simp [printkText, ih]

theorem printkText_bytes (c : List Nat) :
    printkText (c.map fun (b : Nat) => Ev.printk "%02x" [.num (b : Int)]) = c.flatMap fun b => fmt_02x b := by
  induction c with
  | nil => rfl
  | cons b c ih => simp [printkText, render, ih]

theorem printkText_lineEvents (c : List Nat) :
    printkText (lineEvents c) = lineText c ++ ['\n'] := by
  simp [lineEvents, lineText, printkText, printkText_append, printkText_bytes, render]

theorem hexDumpLines_chunks (cs : List (List Nat)) (hcs : ∀ c ∈ cs, ∀ b ∈ c, b < 256) :
    splitLines (printkText (cs.flatMap lineEvents)) = cs.map lineText := by
  induction cs with
  | nil => rfl
  | cons c cs ih =>
    have ih := ih (fun x hx => hcs x (List.mem_cons_of_mem _ hx))
    have hc := lineText_no_newline c (hcs c (List.mem_cons_self _ _))
    unfold splitLines at ih ⊢
    simp only [List.flatMap_cons, printkText_append, printkText_lineEvents, List.append_assoc,
      List.singleton_append, List.map_cons]
    rw [splitLinesAux_line _ _ _ hc, ih]
    rfl

/-! ## The hex-dump loops -/

theorem bytes_length (buf : net_buf_simple) (hlen : buf.len ≤ buf.data.length) :
    buf.bytes.length = buf.len := by
  simp [net_buf_simple.bytes, hlen]

theorem bytes_lt (buf : net_buf_simple) (hwf : buf.wf) : ∀ b ∈ buf.bytes, b < 256 :=
  fun b hb => hwf.2.2 b (List.mem_of_mem_take hb)

theorem hexdump_inner_ok (w : Nat) (buf : net_buf_simple) (i : Nat)
    (hw : buf.len + 16 ≤ 2 ^ w) (hlen : buf.len ≤ buf.data.length) (hi : i < buf.len) :
    ∀ fuel j, j ≤ 16 → 17 - j ≤ fuel →
      hexdump_inner w buf i fuel j =
        .ok (((buf.bytes.drop (i + j)).take (16 - j)).map
          fun (b : Nat) => Ev.printk "%02x" [.num (b : Int)]) := by
  intro fuel
  induction fuel with
  | zero => intro j hj hf; omega
  | succ fuel ih =>
    intro j hj hf
    generalize hM : 2 ^ w = M at hw ih
    have hblen := bytes_length buf hlen
    by_cases hc : j < 16 ∧ i + j < buf.len
    · have hmod : (i + j) % M = i + j := Nat.mod_eq_of_lt (by omega)
      have hmod1 : (j + 1) % M = j + 1 := Nat.mod_eq_of_lt (by omega)
      have hd : i + j < buf.data.length := by omega
      have hb : i + j < buf.bytes.length := by omega
      have hget : buf.bytes[i + j] = buf.data[i + j] := by
        simp [net_buf_simple.bytes]
      have h16 : 16 - j = (16 - (j + 1)) + 1 := by omega
      simp only [hexdump_inner, hM, hmod, hc, and_self, if_true, hmod1,
        List.getElem?_eq_getElem hd, ih (j + 1) (by omega) (by omega)]
      rw [List.drop_eq_getElem_cons hb, h16, List.take_succ_cons, List.map_cons, hget]
      rfl
    · have hmod : (i + j) % M = i + j := Nat.mod_eq_of_lt (by omega)
      simp only [hexdump_inner, hM, hmod, hc, if_false]
      by_cases hj16 : j < 16
      · have : buf.bytes.length ≤ i + j := by
          have := fun h => hc ⟨hj16, h⟩
          omega
        rw [List.drop_eq_nil_of_le this]
        simp
      · have : 16 - j = 0 := by omega
        rw [this]
        rfl

theorem hexdump_outer_ok (w : Nat) (buf : net_buf_simple) (fuel : Nat)
    (hw : buf.len + 16 ≤ 2 ^ w) (hlen : buf.len ≤ buf.data.length) (hfuel : 17 ≤ fuel) :
    ∀ n i, (buf.len + 15 - i) / 16 + 1 ≤ n →
      hexdump_outer w buf fuel n i =
        .ok ((chunksFrom buf.bytes ((buf.len + 15 - i) / 16) i).flatMap lineEvents) := by
  intro n
  induction n with
  | zero => intro i hn; omega
  | succ n ih =>
    intro i hn
    by_cases hi : i < buf.len
    · have hk : (buf.len + 15 - i) / 16 = (buf.len + 15 - (i + 16)) / 16 + 1 := by omega
      have hmod : (i + 16) % 2 ^ w = i + 16 := Nat.mod_eq_of_lt (by omega)
      have hin := hexdump_inner_ok w buf i hw hlen hi fuel 0 (by omega) (by omega)
      simp only [hexdump_outer, hi, if_true, hin, hmod, ih (i + 16) (by omega)]
      rw [hk]
      simp [chunksFrom, lineEvents]
    · have hk : (buf.len + 15 - i) / 16 = 0 := by omega
      simp only [hexdump_outer, hi, if_false, hk]
      rfl

theorem chunksFrom_length (bytes : List Nat) (n i : Nat) :
    (chunksFrom bytes n i).length = n := by
  induction n generalizing i with
  | zero => rfl
  | succ n ih => simp [chunksFrom, ih]

theorem chunksFrom_flatten (bytes : List Nat) (n i : Nat) :
    (chunksFrom bytes n i).flatten = (bytes.drop i).take (16 * n) := by
  induction n generalizing i with
  | zero => rfl
  | succ n ih =>
    have h : 16 * (n + 1) = 16 + 16 * n := by omega
    simp only [chunksFrom, List.flatten_cons, ih, h, List.take_add, List.drop_drop]

theorem chunksFrom_getElem? (bytes : List Nat) (n i k : Nat) (hk : k < n) :
    (chunksFrom bytes n i)[k]? = some ((bytes.drop (i + 16 * k)).take 16) := by
  induction n generalizing i k with
  | zero => omega
  | succ n ih =>
    cases k with
    | zero => simp [chunksFrom]
    | succ k =>
      have h : i + 16 + 16 * k = i + 16 * (k + 1) := by omega
      simp only [chunksFrom, List.getElem?_cons_succ, ih (i + 16) k (by omega), h]

theorem chunksFrom_mem (bytes : List Nat) (n i : Nat) :
    ∀ c ∈ chunksFrom bytes n i, ∀ b ∈ c, b ∈ bytes := by
  induction n generalizing i with
  | zero => intro c hc; cases hc
  | succ n ih =>
    intro c hc b hb
    simp only [chunksFrom, List.mem_cons] at hc
    rcases hc with rfl | hc
    · exact List.mem_of_mem_drop (List.mem_of_mem_take hb)
    · exact ih _ c hc b hb

theorem subevent_buffer_ok (w fuel : Nat) (buf : net_buf_simple) (hwf : buf.wf)
    (hpos : 0 < buf.len) (hw : 32 ≤ w) (hfuel : buf.len / 16 + 17 ≤ fuel) :
    subevent_buffer w fuel (some buf) =
      .ok (.log .INF " - Step data buffer length: %u bytes" [.num buf.len]
            :: .log .INF "Raw step data:" []
            :: (chunksFrom buf.bytes ((buf.len + 15) / 16) 0).flatMap lineEvents) := by
  have h32 : 2 ^ 32 ≤ 2 ^ w := Nat.pow_le_pow_right (by decide) hw
  have hw2 : buf.len + 16 ≤ 2 ^ w := by
    have := hwf.1
    have h : (2 : Nat) ^ 32 = 4294967296 := by norm_num
    omega
  have hout := hexdump_outer_ok w buf fuel hw2 hwf.2.1 (by omega) fuel 0 (by omega)
  simp only [subevent_buffer, gt_iff_lt, hpos, if_true, hout, Nat.sub_zero]

theorem buf20_wf : buf20.wf := by
  refine ⟨by decide, by decide, ?_⟩
  decide

theorem subevent_result_cb_ok (w fuel : Nat) (conn : Conn)
    (result : bt_conn_le_cs_subevent_result) (buf : net_buf_simple)
    (hbuf : result.step_data_buf = some buf) (hwf : buf.wf) (hpos : 0 < buf.len)
    (hw : 32 ≤ w) (hfuel : buf.len / 16 + 17 ≤ fuel) :
    subevent_result_cb w fuel conn result =
      .ok (subevent_header result.header ++
        (.log .INF " - Step data buffer length: %u bytes" [.num buf.len]
          :: .log .INF "Raw step data:" []
          :: (chunksFrom buf.bytes ((buf.len + 15) / 16) 0).flatMap lineEvents) ++
        [.log .INF "CS Subevent end" []]) := by
  simp only [subevent_result_cb, hbuf, subevent_buffer_ok w fuel buf hwf hpos hw hfuel]

theorem hexDumpLines_ok (h : subevent_result_header) (len : Nat) (cs : List (List Nat))
    (hcs : ∀ c ∈ cs, ∀ b ∈ c, b < 256) :
    hexDumpLines (subevent_header h ++
        (.log .INF " - Step data buffer length: %u bytes" [.num len]
          :: .log .INF "Raw step data:" [] :: cs.flatMap lineEvents) ++
        [.log .INF "CS Subevent end" []]) = cs.map lineText := by
  unfold hexDumpLines
  rw [← hexDumpLines_chunks cs hcs]
  simp [printkText_append, printkText, subevent_header]

theorem lineEvents_printk (cs : List (List Nat)) :
    ∀ e ∈ cs.flatMap lineEvents, ∃ fmt args, e = Ev.printk fmt args := by
  intro e he
  simp only [List.mem_flatMap, lineEvents, List.mem_cons, List.mem_append, List.mem_map,
    List.mem_singleton] at he
  obtain ⟨c, _, (h | ⟨b, _, h⟩) | h | h⟩ := he
  · exact ⟨_, _, h⟩
  · exact ⟨_, _, h.symm⟩
  · exact ⟨_, _, h⟩
  · cases h

/-! ## Claims on the telemetry reporter -/

/-- C1: for a Subevent Result with a non-empty raw buffer, every hex-dump line
emitted by `subevent_result_cb` parses as consecutive two-digit lowercase
hexadecimal byte values, and the parsed lines, concatenated in emission order,
are exactly the bytes of the buffer. -/
theorem subevent_hexdump_roundtrip (w fuel : Nat) (conn : Conn)
    (result : bt_conn_le_cs_subevent_result) (buf : net_buf_simple)
    (hbuf : result.step_data_buf = some buf) (hwf : buf.wf) (hpos : 0 < buf.len)
    (hw : 32 ≤ w) (hfuel : buf.len / 16 + 17 ≤ fuel) :
    ∃ (out : List Ev) (chunks : List (List Nat)), subevent_result_cb w fuel conn result = .ok out ∧
      (hexDumpLines out).map parseHexLine = chunks.map some ∧
      chunks.flatten = buf.bytes := by
  have hmem : ∀ c ∈ chunksFrom buf.bytes ((buf.len + 15) / 16) 0, ∀ b ∈ c, b < 256 :=
    fun c hc b hb => bytes_lt buf hwf b (chunksFrom_mem _ _ _ c hc b hb)
  refine ⟨_, chunksFrom buf.bytes ((buf.len + 15) / 16) 0,
    subevent_result_cb_ok w fuel conn result buf hbuf hwf hpos hw hfuel, ?_, ?_⟩
  · rw [hexDumpLines_ok _ _ _ hmem, List.map_map]
    apply List.map_congr_left
    intro c hc
    exact parseHexLine_lineText c (hmem c hc)
  · rw [chunksFrom_flatten, List.drop_zero]
    apply List.take_of_length_le
    rw [bytes_length buf hwf.2.1]
    omega

/-- Witness of C1 on a 20-byte buffer. -/
theorem subevent_hexdump_roundtrip_witness :
    ∃ (out : List Ev) (chunks : List (List Nat)), subevent_result_cb 32 18 0 result20 = .ok out ∧
      (hexDumpLines out).map parseHexLine = chunks.map some ∧
      chunks.flatten = buf20.bytes :=
  subevent_hexdump_roundtrip 32 18 0 result20 buf20 rfl buf20_wf (by decide) (by decide)
    (by decide)

/-- C2: for a raw buffer of length `L ≥ 1`, `subevent_result_cb` emits exactly
`ceil(L/16)` hex-dump lines; every line but the last carries 16 bytes (32 hex
characters after the indent), the last one `L mod 16` bytes, or 16 when `L` is
a multiple of 16. -/
theorem subevent_hexdump_line_count (w fuel : Nat) (conn : Conn)
    (result : bt_conn_le_cs_subevent_result) (buf : net_buf_simple)
    (hbuf : result.step_data_buf = some buf) (hwf : buf.wf) (hpos : 0 < buf.len)
    (hw : 32 ≤ w) (hfuel : buf.len / 16 + 17 ≤ fuel) :
    ∃ out, subevent_result_cb w fuel conn result = .ok out ∧
      (hexDumpLines out).length = (buf.len + 15) / 16 ∧
      ∀ k line, (hexDumpLines out)[k]? = some line →
        ∃ c, parseHexLine line = some c ∧
          c.length = (if k + 1 < (buf.len + 15) / 16 then 16
                      else if buf.len % 16 = 0 then 16 else buf.len % 16) ∧
          line.take 2 = [' ', ' '] ∧
          (line.drop 2).length = 2 * c.length := by
  have hmem : ∀ c ∈ chunksFrom buf.bytes ((buf.len + 15) / 16) 0, ∀ b ∈ c, b < 256 :=
    fun c hc b hb => bytes_lt buf hwf b (chunksFrom_mem _ _ _ c hc b hb)
  refine ⟨_, subevent_result_cb_ok w fuel conn result buf hbuf hwf hpos hw hfuel, ?_, ?_⟩
  · rw [hexDumpLines_ok _ _ _ hmem, List.length_map, chunksFrom_length]
  · intro k line hline
    rw [hexDumpLines_ok _ _ _ hmem, List.getElem?_map] at hline
    have hk : k < (buf.len + 15) / 16 := by
      by_contra hk
      rw [List.getElem?_eq_none (by rw [chunksFrom_length]; omega)] at hline
      cases hline
    rw [chunksFrom_getElem? _ _ _ _ hk] at hline
    simp only [Option.map_some', Option.some.injEq] at hline
    have hc : ∀ b ∈ (buf.bytes.drop (0 + 16 * k)).take 16, b < 256 :=
      fun b hb => bytes_lt buf hwf b (List.mem_of_mem_drop (List.mem_of_mem_take hb))
    refine ⟨(buf.bytes.drop (0 + 16 * k)).take 16, ?_, ?_, ?_, ?_⟩
    · rw [← hline]; exact parseHexLine_lineText _ hc
    · rw [List.length_take, List.length_drop, bytes_length buf hwf.2.1]
      split_ifs <;> omega
    · rw [← hline]; rfl
    · have := lineText_length _ hc
      rw [← hline]
      simp only [lineText, List.drop_succ_cons, List.drop_zero, List.length_cons] at this ⊢
      omega

/-- Witness of C2: the 20-byte buffer renders as two lines of 32 and 8 hex
characters. -/
theorem subevent_hexdump_line_count_witness :
    (subevent_result_cb 32 18 0 result20).toOption.map
        (fun out => (hexDumpLines out).map fun l => (l.drop 2).length) = some [32, 8] ∧
    ∃ out, subevent_result_cb 32 18 0 result20 = .ok out ∧
      (hexDumpLines out).length = (buf20.len + 15) / 16 ∧
      ∀ k line, (hexDumpLines out)[k]? = some line →
        ∃ c, parseHexLine line = some c ∧
          c.length = (if k + 1 < (buf20.len + 15) / 16 then 16
                      else if buf20.len % 16 = 0 then 16 else buf20.len % 16) ∧
          line.take 2 = [' ', ' '] ∧
          (line.drop 2).length = 2 * c.length :=
  ⟨by decide,
    subevent_hexdump_line_count 32 18 0 result20 buf20 rfl buf20_wf (by decide) (by decide)
      (by decide)⟩

/-- C3: when the raw buffer of a Subevent Result is null or has length 0,
`subevent_result_cb` emits the start marker, the eight header fields and the
end marker and nothing else: no hex-dump line and no buffer-length record. -/
theorem subevent_empty_buffer (w fuel : Nat) (conn : Conn)
    (result : bt_conn_le_cs_subevent_result)
    (h : result.step_data_buf = none ∨
      ∃ buf, result.step_data_buf = some buf ∧ buf.len = 0) :
    ∃ out, subevent_result_cb w fuel conn result = .ok out ∧
      out =
        [ .log .INF "CS Subevent result received:" [],
          .log .INF " - Procedure counter: %u" [.num result.header.procedure_counter],
          .log .INF " - Procedure done status: %u" [.num result.header.procedure_done_status],
          .log .INF " - Subevent done status: %u" [.num result.header.subevent_done_status],
          .log .INF " - Procedure abort reason: %u" [.num result.header.procedure_abort_reason],
          .log .INF " - Subevent abort reason: %u" [.num result.header.subevent_abort_reason],
          .log .INF " - Reference power level: %d" [.num result.header.reference_power_level],
          .log .INF " - Num antenna paths: %u" [.num result.header.num_antenna_paths],
          .log .INF " - Num steps reported: %u" [.num result.header.num_steps_reported],
          .log .INF "CS Subevent end" [] ] ∧
      hexDumpLines out = [] ∧
      (∀ fmt args, Ev.printk fmt args ∉ out) ∧
      ∀ lvl args, Ev.log lvl " - Step data buffer length: %u bytes" args ∉ out := by
  have hb : subevent_buffer w fuel result.step_data_buf = .ok [] := by
    rcases h with h | ⟨buf, h, h0⟩
    · rw [h]; rfl
    · rw [h]; simp [subevent_buffer, h0]
  refine ⟨_, by simp only [subevent_result_cb, hb]; rfl, ?_, ?_, ?_, ?_⟩
  · simp [subevent_header]
  · simp [subevent_header, hexDumpLines, printkText, splitLines, splitLinesAux]
  · intro fmt args
    simp [subevent_header]
  · intro lvl args
    simp [subevent_header]

/-- Witness of C3: a null buffer pointer. -/
theorem subevent_empty_buffer_witness :
    ∃ out, subevent_result_cb 32 0 0 resultNull = .ok out ∧
      out =
        [ .log .INF "CS Subevent result received:" [],
          .log .INF " - Procedure counter: %u" [.num resultNull.header.procedure_counter],
          .log .INF " - Procedure done status: %u" [.num resultNull.header.procedure_done_status],
          .log .INF " - Subevent done status: %u" [.num resultNull.header.subevent_done_status],
          .log .INF " - Procedure abort reason: %u"
            [.num resultNull.header.procedure_abort_reason],
          .log .INF " - Subevent abort reason: %u" [.num resultNull.header.subevent_abort_reason],
          .log .INF " - Reference power level: %d" [.num resultNull.header.reference_power_level],
          .log .INF " - Num antenna paths: %u" [.num resultNull.header.num_antenna_paths],
          .log .INF " - Num steps reported: %u" [.num resultNull.header.num_steps_reported],
          .log .INF "CS Subevent end" [] ] ∧
      hexDumpLines out = [] ∧
      (∀ fmt args, Ev.printk fmt args ∉ out) ∧
      ∀ lvl args, Ev.log lvl " - Step data buffer length: %u bytes" args ∉ out :=
  subevent_empty_buffer 32 0 0 resultNull (Or.inl rfl)

/-- C4: for every Subevent Result, `subevent_result_cb` first emits the start
marker and then the eight header fields, in the order procedure counter,
procedure done-status, subevent done-status, procedure abort-reason, subevent
abort-reason, reference power level (conversion `%d`, a signed decimal),
antenna-path count, reported-step count, each with the value of its header
field; nothing emitted after them is a record of one of these eight fields. -/
theorem subevent_header_order (w fuel : Nat) (conn : Conn)
    (result : bt_conn_le_cs_subevent_result)
    (hwf : ∀ buf, result.step_data_buf = some buf → buf.wf ∧ buf.len / 16 + 17 ≤ fuel)
    (hw : 32 ≤ w) :
    ∃ rest, subevent_result_cb w fuel conn result =
        .ok (
          [ .log .INF "CS Subevent result received:" [],
            .log .INF " - Procedure counter: %u" [.num result.header.procedure_counter],
            .log .INF " - Procedure done status: %u" [.num result.header.procedure_done_status],
            .log .INF " - Subevent done status: %u" [.num result.header.subevent_done_status],
            .log .INF " - Procedure abort reason: %u"
              [.num result.header.procedure_abort_reason],
            .log .INF " - Subevent abort reason: %u" [.num result.header.subevent_abort_reason],
            .log .INF " - Reference power level: %d"
              [.num result.header.reference_power_level],
            .log .INF " - Num antenna paths: %u" [.num result.header.num_antenna_paths],
            .log .INF " - Num steps reported: %u" [.num result.header.num_steps_reported] ]
          ++ rest) ∧
      (∀ lvl fmt args, Ev.log lvl fmt args ∈ rest → fmt ∉ headerFormats) ∧
      render " - Reference power level: %d".toList [.num result.header.reference_power_level] =
        " - Reference power level: ".toList ++ fmt_d result.header.reference_power_level := by
  have key : ∃ body, subevent_buffer w fuel result.step_data_buf = .ok body ∧
      ∀ lvl fmt args, Ev.log lvl fmt args ∈ body → fmt ∉ headerFormats := by
    cases hb : result.step_data_buf with
    | none => exact ⟨[], rfl, fun _ _ _ h => by cases h⟩
    | some buf =>
      by_cases hpos : 0 < buf.len
      · obtain ⟨hwf1, hfuel⟩ := hwf buf hb
        refine ⟨_, subevent_buffer_ok w fuel buf hwf1 hpos hw hfuel, ?_⟩
        intro lvl fmt args hmem
        simp only [List.mem_cons] at hmem
        rcases hmem with h | h | h
        · cases h; decide
        · cases h; decide
        · obtain ⟨f, a, h2⟩ := lineEvents_printk _ _ h
          cases h2
      · refine ⟨[], by simp [subevent_buffer, hpos], fun _ _ _ h => by cases h⟩
  obtain ⟨body, hbody, hno⟩ := key
  refine ⟨body ++ [.log .INF "CS Subevent end" []], ?_, ?_, ?_⟩
  · simp only [subevent_result_cb, hbody, subevent_header, List.append_assoc]
  · intro lvl fmt args hmem
    rcases List.mem_append.1 hmem with h | h
    · exact hno lvl fmt args h
    · simp only [List.mem_singleton] at h
      cases h; decide
  · simp [render]

/-- Witness of C4: the 20-byte result with reference power level -6. -/
theorem subevent_header_order_witness :
    ∃ rest, subevent_result_cb 32 18 0 result20 =
        .ok (
          [ .log .INF "CS Subevent result received:" [],
            .log .INF " - Procedure counter: %u" [.num result20.header.procedure_counter],
            .log .INF " - Procedure done status: %u" [.num result20.header.procedure_done_status],
            .log .INF " - Subevent done status: %u" [.num result20.header.subevent_done_status],
            .log .INF " - Procedure abort reason: %u"
              [.num result20.header.procedure_abort_reason],
            .log .INF " - Subevent abort reason: %u" [.num result20.header.subevent_abort_reason],
            .log .INF " - Reference power level: %d"
              [.num result20.header.reference_power_level],
            .log .INF " - Num antenna paths: %u" [.num result20.header.num_antenna_paths],
            .log .INF " - Num steps reported: %u" [.num result20.header.num_steps_reported] ]
          ++ rest) ∧
      (∀ lvl fmt args, Ev.log lvl fmt args ∈ rest → fmt ∉ headerFormats) ∧
      render " - Reference power level: %d".toList [.num result20.header.reference_power_level] =
        " - Reference power level: ".toList ++ fmt_d result20.header.reference_power_level :=
  subevent_header_order 32 18 0 result20
    (fun buf h => by cases h; exact ⟨buf20_wf, by decide⟩) (by decide)

/-! ## Ordering invariant of the initiator -/

theorem precedes_nil (a b : Ev → Bool) : Precedes a b [] := by
  intro pre e post h
  cases pre <;> cases h

theorem precedes_append (a b : Ev → Bool) (t evs : List Ev) (ht : Precedes a b t)
    (hevs : ∀ e ∈ evs, b e = true → t.any a = true) : Precedes a b (t ++ evs) := by
  intro pre e post h hb
  rcases List.append_eq_append_iff.1 h with ⟨a', hpre, hevs'⟩ | ⟨c', ht', hc'⟩
  · have he : e ∈ evs := by rw [hevs']; simp
    obtain ⟨x, hx, hax⟩ := List.any_eq_true.1 (hevs e he hb)
    exact ⟨x, by rw [hpre]; exact List.mem_append_left _ hx, hax⟩
  · cases c' with
    | nil =>
      simp only [List.nil_append] at hc'
      have he : e ∈ evs := by rw [← hc']; simp
      obtain ⟨x, hx, hax⟩ := List.any_eq_true.1 (hevs e he hb)
      exact ⟨x, by simpa [ht'] using hx, hax⟩
    | cons c cs =>
      simp only [List.cons_append, List.cons.injEq] at hc'
      obtain ⟨rfl, _⟩ := hc'
      exact ht pre e cs ht' hb

namespace cs_ini

theorem inv_reboot (p : List Ev) : Inv { vars := bootVars, trace := [], past := p } := by
  refine ⟨?_, fun r => precedes_nil _ _⟩
  intro g hg
  cases g <;> simp [signalled, bootVars, PC.rank] at hg

theorem inv_emit (v v' : Vars) (t evs p p' : List Ev) (hinv : Inv ⟨v, t, p⟩)
    (hsig : ∀ g, signalled g v' → signalled g v ∨ evs.any (Ev.isOk g) = true)
    (hreq : ∀ r : Req, evs.any (Ev.isReq r) = true → signalled r.after v) :
    Inv ⟨v', t ++ evs, p'⟩ := by
  refine ⟨?_, ?_⟩
  · intro g hg
    simp only [List.any_append, Bool.or_eq_true]
    rcases hsig g hg with h | h
    · exact Or.inl (hinv.1 g h)
    · exact Or.inr h
  · intro r
    apply precedes_append _ _ _ _ (hinv.2 r)
    intro e he hb
    exact hinv.1 _ (hreq r (List.any_eq_true.2 ⟨e, he, hb⟩))

theorem inv_vars (v v' : Vars) (t p p' : List Ev) (hinv : Inv ⟨v, t, p⟩)
    (hsig : ∀ g, signalled g v' → signalled g v) : Inv ⟨v', t, p'⟩ := by
  have := inv_emit v v' t [] p p' hinv (fun g hg => Or.inl (hsig g hg))
    (fun r hr => by simp at hr)
  simpa using this

theorem inv_main (s s' : State) (ret : Int) (h : main_step ret s = some s') (hinv : Inv s) :
    Inv s' := by
  rcases s with ⟨⟨pc, s1, s2, s3, s4, s5, conn⟩, trace, past⟩
  cases pc <;>
    simp only [main_step, request, State.emit, State.goto, k_sem_take, Option.map_eq_some',
      List.append_assoc, List.cons_append, List.nil_append] at h
  all_goals
    first
    | (cases h; done)
    | (obtain ⟨a, ha, rfl⟩ := h
       split_ifs at ha with hc
       cases ha
       apply inv_vars _ _ _ _ _ hinv
       intro g
       cases g <;> simp [signalled, PC.rank]
       omega)
    | (split_ifs at h with hret <;>
        (simp only [Option.some.injEq, List.append_assoc, List.cons_append,
           List.nil_append] at h
         try simp only [ne_eq, not_not] at hret
         subst h
         apply inv_emit _ _ _ _ _ _ hinv
         · intro g
           cases g <;> simp [signalled, PC.rank, Ev.isOk, hret]
         · intro r
           cases r <;> simp [signalled, PC.rank, Ev.isReq, Req.after]))


end cs_ini

theorem hexdump_inner_text (w : Nat) (buf : net_buf_simple) (i : Nat) :
    ∀ fuel j out, hexdump_inner w buf i fuel j = .ok out → ∀ e ∈ out, e.isText = true := by
  intro fuel
  induction fuel with
  | zero => intro j out h; cases h
  | succ fuel ih =>
    intro j out h
    simp only [hexdump_inner] at h
    split_ifs at h with hc
    · split at h
      · cases h
      · split at h
        · cases h
        · rename_i rest hrest
          cases h
          intro e he
          rcases List.mem_cons.1 he with rfl | he
          · rfl
          · exact ih _ _ hrest e he
    · cases h
      intro e he
      cases he

theorem hexdump_outer_text (w : Nat) (buf : net_buf_simple) (fuel : Nat) :
    ∀ n i out, hexdump_outer w buf fuel n i = .ok out → ∀ e ∈ out, e.isText = true := by
  intro n
  induction n with
  | zero => intro i out h; cases h
  | succ n ih =>
    intro i out h
    simp only [hexdump_outer] at h
    split_ifs at h with hc
    · split at h
      · cases h
      · rename_i line hline
        split at h
        · cases h
        · rename_i rest hrest
          cases h
          intro e he
          simp only [List.mem_cons, List.mem_append] at he
          rcases he with (rfl | he) | rfl | he
          · rfl
          · exact hexdump_inner_text _ _ _ _ _ _ hline e he
          · rfl
          · exact ih _ _ hrest e he
    · cases h
      intro e he
      cases he

theorem subevent_result_cb_text (w fuel : Nat) (conn : Conn)
    (result : bt_conn_le_cs_subevent_result) (out : List Ev)
    (h : subevent_result_cb w fuel conn result = .ok out) : ∀ e ∈ out, e.isText = true := by
  simp only [subevent_result_cb] at h
  split at h
  · cases h
  · rename_i body hbody
    cases h
    have hb : ∀ e ∈ body, e.isText = true := by
      cases hr : result.step_data_buf with
      | none =>
        rw [hr] at hbody
        cases hbody
        intro e he; cases he
      | some buf =>
        rw [hr] at hbody
        simp only [subevent_buffer] at hbody
        split_ifs at hbody
        · split at hbody
          · cases hbody
          · rename_i dump hdump
            cases hbody
            intro e he
            simp only [List.mem_cons] at he
            rcases he with rfl | rfl | he
            · rfl
            · rfl
            · exact hexdump_outer_text _ _ _ _ _ _ hdump e he
        · cases hbody
          intro e he; cases he
    intro e he
    simp only [List.mem_append, List.mem_singleton] at he
    rcases he with (he | he) | rfl
    · simp only [subevent_header, List.mem_cons] at he
      rcases he with rfl | rfl | rfl | rfl | rfl | rfl | rfl | rfl | rfl | he
      all_goals first | rfl | cases he
    · exact hb e he
    · rfl

theorem text_not_req (e : Ev) (h : e.isText = true) (r : Req) : e.isReq r = false := by
  cases e <;> cases r <;> simp_all [Ev.isText, Ev.isReq]

theorem text_any_req (out : List Ev) (h : ∀ e ∈ out, e.isText = true) (r : Req) :
    out.any (Ev.isReq r) = false := by
  rw [List.any_eq_false]
  intro e he
  simp [text_not_req e (h e he) r]

namespace cs_ini

theorem inv_cb (s s' : State) (c : Callback) (h : callback c (s.emit [.enter c]) = some s')
    (hinv : Inv s) : Inv s' := by
  rcases s with ⟨v, trace, past⟩
  cases c <;>
    simp only [callback, connected_cb, disconnected_cb, le_param_req, security_changed,
      remote_capabilities_cb, config_create_cb, security_enable_cb, procedure_enable_cb,
      scan_filter_match, scan_connecting_error, scan_connecting, sys_reboot,
      State.emit, State.goto, List.append_assoc, List.cons_append, List.nil_append] at h
  case disconnected conn reason =>
    cases h
    exact inv_reboot _
  case subevent_result conn result =>
    split at h
    · rename_i out hout
      cases h
      have htext : ∀ e ∈ Ev.enter (Callback.subevent_result conn result) :: out,
          e.isText = true ∨ e = Ev.enter (Callback.subevent_result conn result) := by
        intro e he
        rcases List.mem_cons.1 he with rfl | he
        · exact Or.inr rfl
        · exact Or.inl (subevent_result_cb_text _ _ _ _ _ hout e he)
      apply inv_emit _ _ _ _ _ _ hinv
      · intro g hg
        exact Or.inl hg
      · intro r hr
        obtain ⟨e, he, hre⟩ := List.any_eq_true.1 hr
        rcases htext e he with h1 | rfl
        · rw [text_not_req e h1 r] at hre
          cases hre
        · cases r <;> simp [Ev.isReq] at hre
    · cases h
  all_goals
    first
    | (split_ifs at h with hc <;>
        (simp only [Option.some.injEq, List.append_assoc, List.cons_append,
           List.nil_append] at h
         try simp only [ne_eq, not_not] at hc
         subst h
         apply inv_emit _ _ _ _ _ _ hinv
         · intro g
           cases g <;> simp [signalled, Ev.isOk, k_sem_give, hc]
         · intro r
           cases r <;> simp [Ev.isReq]))
    | (simp only [Option.some.injEq, List.append_assoc, List.cons_append,
           List.nil_append] at h
       subst h
       apply inv_emit _ _ _ _ _ _ hinv
       · intro g
         cases g <;> simp [signalled, Ev.isOk]
       · intro r
         cases r <;> simp [Ev.isReq])

end cs_ini

namespace cs_ini

theorem inv_step (s s' : State) (l : Label) (h : step s l = some s') (hinv : Inv s) :
    Inv s' := by
  cases l with
  | main ret => exact inv_main s s' ret h hinv
  | cb c => exact inv_cb s s' c h hinv

theorem inv_run (ls : List Label) : ∀ s s', run s ls = some s' → Inv s → Inv s' := by
  induction ls with
  | nil => intro s s' h hinv; cases h; exact hinv
  | cons l ls ih =>
    intro s s' h hinv
    simp only [run, Option.bind_eq_some] at h
    obtain ⟨s1, h1, h2⟩ := h
    exact ih s1 s' h2 (inv_step s s1 l h1 hinv)

end cs_ini

theorem precedes_none (a b : Ev → Bool) (t : List Ev) (h : Precedes a b t)
    (ha : ∀ e ∈ t, a e = false) : ∀ e ∈ t, b e = false := by
  intro e he
  obtain ⟨pre, post, rfl⟩ := List.append_of_mem he
  cases hb : b e with
  | false => rfl
  | true =>
    obtain ⟨x, hx, hax⟩ := h pre e post rfl hb
    rw [ha x (List.mem_append_left _ hx)] at hax
    cases hax

/-- C5: in every run of the initiator from boot, whatever the interleaving of
`main` with the callbacks, each request of the sequence is issued only after
the success completion of the step before it has been observed: set-security
after a successful connection, default-settings and capability exchange after
a successful security change, config creation after a successful capability
exchange, CS security enable after a successful config creation, procedure
parameters after a successful CS security enable, procedure enable after the
procedure-parameter request returned 0. In particular, while capability
exchange has completed only without success, no config-creation request is in
the trace, and such a completion logs a warning and changes no variable. -/
theorem initiator_request_order (ls : List Label) (s : cs_ini.State)
    (h : cs_ini.run cs_ini.boot ls = some s) :
    Precedes (Ev.isOk .connected) (Ev.isReq .set_security) s.trace ∧
    Precedes (Ev.isOk .security) (Ev.isReq .set_default_settings) s.trace ∧
    Precedes (Ev.isOk .security) (Ev.isReq .read_remote_capabilities) s.trace ∧
    Precedes (Ev.isOk .remote_capabilities) (Ev.isReq .create_config) s.trace ∧
    Precedes (Ev.isOk .config_created) (Ev.isReq .security_enable) s.trace ∧
    Precedes (Ev.isOk .cs_security_enabled) (Ev.isReq .set_procedure_parameters) s.trace ∧
    Precedes (Ev.isOk .procedure_parameters) (Ev.isReq .procedure_enable) s.trace ∧
    ((∀ e ∈ s.trace, Ev.isOk .remote_capabilities e = false) →
      ∀ e ∈ s.trace, Ev.isReq .create_config e = false) ∧
    ∀ conn status, status ≠ BT_HCI_ERR_SUCCESS →
      cs_ini.step s (.cb (.remote_capabilities conn status)) =
        some { s with trace := s.trace ++
          [ .enter (.remote_capabilities conn status),
            .log .WRN "CS capability exchange failed. (HCI status 0x%02x)" [.num status] ] } := by
  have hinv := cs_ini.inv_run ls _ _ h (cs_ini.inv_reboot [])
  refine ⟨hinv.2 .set_security, hinv.2 .set_default_settings, hinv.2 .read_remote_capabilities,
    hinv.2 .create_config, hinv.2 .security_enable, hinv.2 .set_procedure_parameters,
    hinv.2 .procedure_enable, precedes_none _ _ _ (hinv.2 .create_config), ?_⟩
  intro conn status hst
  simp [cs_ini.step, cs_ini.callback, cs_ini.remote_capabilities_cb, cs_ini.State.emit, hst]

/-- Witness of C5: a run that reaches the config-creation request. -/
theorem initiator_request_order_witness :
    ∃ s, cs_ini.run cs_ini.boot iniRun = some s ∧
      Precedes (Ev.isOk .remote_capabilities) (Ev.isReq .create_config) s.trace ∧
      s.trace.any (Ev.isReq .create_config) = true :=
  ⟨_, rfl, (initiator_request_order iniRun _ rfl).2.2.2.1, by decide⟩

/-! ## Failures of the initiator -/

theorem isAnyReq_of_isReq (e : Ev) (r : Req) (h : e.isReq r = true) : e.isAnyReq = true := by
  cases r <;> simp [Ev.isAnyReq, h]

theorem isAnyReq_of_failed (e : Ev) (h : e.isFailedReq = true) : e.isAnyReq = true := by
  cases e <;> simp_all [Ev.isFailedReq]

theorem noneAfter_of_countP (t : List Ev) (h : t.countP Ev.isAnyReq ≤ 1) :
    NoneAfter Ev.isFailedReq Ev.isAnyReq t := by
  intro pre e post ht he x hx
  have hany := isAnyReq_of_failed e he
  subst ht
  simp only [List.countP_append, List.countP_cons, hany, if_true] at h
  have h0 : List.countP Ev.isAnyReq post = 0 := by omega
  have := List.countP_eq_zero.1 h0 x hx
  simpa using this

theorem noneAfter_append (t evs : List Ev) (ht : NoneAfter Ev.isFailedReq Ev.isAnyReq t)
    (hevs : evs.countP Ev.isAnyReq ≤ 1)
    (hfail : t.any Ev.isFailedReq = true → evs.any Ev.isAnyReq = false) :
    NoneAfter Ev.isFailedReq Ev.isAnyReq (t ++ evs) := by
  intro pre e post h he x hx
  rcases List.append_eq_append_iff.1 h with ⟨a', hpre, hevs'⟩ | ⟨c', ht', hc'⟩
  · exact noneAfter_of_countP evs hevs a' e post hevs' he x hx
  · cases c' with
    | nil =>
      simp only [List.nil_append] at hc'
      exact noneAfter_of_countP evs hevs [] e post hc'.symm he x hx
    | cons c cs =>
      simp only [List.cons_append, List.cons.injEq] at hc'
      obtain ⟨rfl, rfl⟩ := hc'
      rcases List.mem_append.1 hx with hx | hx
      · exact ht pre e cs ht' he x hx
      · have hf : t.any Ev.isFailedReq = true :=
          List.any_eq_true.2 ⟨e, by rw [ht']; simp, he⟩
        have := List.any_eq_false.1 (hfail hf) x hx
        simpa using this

namespace cs_ini

theorem fatal_reboot (p : List Ev) : InvFatal { vars := bootVars, trace := [], past := p } := by
  refine ⟨fun r h => by simp at h, fun r => by simp, fun h => by simp at h, ?_⟩
  intro pre e post h
  cases pre <;> cases h

theorem fatal_emit (v v' : Vars) (t evs p p' : List Ev) (hinv : InvFatal ⟨v, t, p⟩)
    (h1 : v.pc.rank ≤ v'.pc.rank)
    (h2 : ∀ r : Req, evs.any (Ev.isReq r) = true →
      v.pc = reqPC r ∧ (reqPC r).rank < v'.pc.rank ∧ evs.countP (Ev.isReq r) ≤ 1)
    (h3 : evs.any Ev.isFailedReq = true → v'.pc = .returned)
    (h4 : v.pc = .returned → v'.pc = .returned ∧ evs.any Ev.isAnyReq = false)
    (h5 : evs.countP Ev.isAnyReq ≤ 1) :
    InvFatal ⟨v', t ++ evs, p'⟩ := by
  obtain ⟨i1, i2, i3, i4⟩ := hinv
  simp only at i1 i2 i3 i4
  refine ⟨?_, ?_, ?_, ?_⟩
  · intro r hr
    simp only [List.any_append, Bool.or_eq_true] at hr
    rcases hr with hr | hr
    · exact Nat.lt_of_lt_of_le (i1 r hr) h1
    · exact (h2 r hr).2.1
  · intro r
    simp only [List.countP_append]
    cases hr : evs.any (Ev.isReq r) with
    | false =>
      have : evs.countP (Ev.isReq r) = 0 := by
        rw [List.countP_eq_zero]
        intro x hx
        have := List.any_eq_false.1 hr x hx
        simpa using this
      have := i2 r
      omega
    | true =>
      obtain ⟨hpc, _, hc⟩ := h2 r hr
      have : t.countP (Ev.isReq r) = 0 := by
        rw [List.countP_eq_zero]
        intro x hx hxr
        have := i1 r (List.any_eq_true.2 ⟨x, hx, hxr⟩)
        rw [hpc] at this
        exact Nat.lt_irrefl _ this
      omega
  · intro hf
    simp only [List.any_append, Bool.or_eq_true] at hf
    rcases hf with hf | hf
    · exact (h4 (i3 hf)).1
    · exact h3 hf
  · exact noneAfter_append t evs i4 h5 (fun hf => (h4 (i3 hf)).2)

theorem fatal_vars (v v' : Vars) (t p p' : List Ev) (hinv : InvFatal ⟨v, t, p⟩)
    (h1 : v.pc.rank ≤ v'.pc.rank) (h4 : v.pc = .returned → v'.pc = .returned) :
    InvFatal ⟨v', t, p'⟩ := by
  have := fatal_emit v v' t [] p p' hinv h1 (fun r hr => by simp at hr)
    (fun h => by simp at h) (fun h => ⟨h4 h, by simp⟩) (by simp)
  simpa using this

theorem fatal_main (s s' : State) (ret : Int) (h : main_step ret s = some s')
    (hinv : InvFatal s) : InvFatal s' := by
  rcases s with ⟨⟨pc, s1, s2, s3, s4, s5, conn⟩, trace, past⟩
  cases pc <;>
    simp only [main_step, request, State.emit, State.goto, k_sem_take, Option.map_eq_some',
      List.append_assoc, List.cons_append, List.nil_append] at h
  all_goals
    first
    | (cases h; done)
    | (obtain ⟨a, ha, rfl⟩ := h
       split_ifs at ha with hc
       cases ha
       apply fatal_vars _ _ _ _ _ hinv <;> simp [PC.rank])
    | (split_ifs at h with hret <;>
        (simp only [Option.some.injEq, List.append_assoc, List.cons_append,
           List.nil_append] at h
         try simp only [ne_eq, not_not] at hret
         subst h
         apply fatal_emit _ _ _ _ _ _ hinv
         · simp [PC.rank]
         · intro r
           cases r <;> simp [PC.rank, Ev.isReq, reqPC]
         · simp [Ev.isFailedReq, Ev.isAnyReq, Ev.isReq, hret]
         · simp
         · simp [Ev.isAnyReq, Ev.isReq]))


theorem fatal_cb (s s' : State) (c : Callback) (h : callback c (s.emit [.enter c]) = some s')
    (hinv : InvFatal s) : InvFatal s' := by
  rcases s with ⟨v, trace, past⟩
  cases c <;>
    simp only [callback, connected_cb, disconnected_cb, le_param_req, security_changed,
      remote_capabilities_cb, config_create_cb, security_enable_cb, procedure_enable_cb,
      scan_filter_match, scan_connecting_error, scan_connecting, sys_reboot,
      State.emit, State.goto, List.append_assoc, List.cons_append, List.nil_append] at h
  case disconnected conn reason =>
    cases h
    exact fatal_reboot _
  case subevent_result conn result =>
    split at h
    · rename_i out hout
      cases h
      have hno : ∀ e ∈ Ev.enter (Callback.subevent_result conn result) :: out,
          e.isAnyReq = false := by
        intro e he
        rcases List.mem_cons.1 he with rfl | he
        · rfl
        · have ht := subevent_result_cb_text _ _ _ _ _ hout e he
          simp [Ev.isAnyReq, text_not_req e ht]
      have hany : (Ev.enter (Callback.subevent_result conn result) :: out).any Ev.isAnyReq
          = false := List.any_eq_false.2 (fun e he => by simp [hno e he])
      have hcount : (Ev.enter (Callback.subevent_result conn result) :: out).countP Ev.isAnyReq
          = 0 := List.countP_eq_zero.2 (fun e he => by simp [hno e he])
      apply fatal_emit _ _ _ _ _ _ hinv
      · exact Nat.le_refl _
      · intro r hr
        obtain ⟨e, he, hre⟩ := List.any_eq_true.1 hr
        have := hno e he
        rw [isAnyReq_of_isReq e r hre] at this
        cases this
      · intro hf
        obtain ⟨e, he, hfe⟩ := List.any_eq_true.1 hf
        have := hno e he
        rw [isAnyReq_of_failed e hfe] at this
        cases this
      · intro hp
        exact ⟨hp, hany⟩
      · rw [hcount]
        exact Nat.zero_le _
    · cases h
  all_goals
    first
    | (split_ifs at h with hc <;>
        (simp only [Option.some.injEq, List.append_assoc, List.cons_append,
           List.nil_append] at h
         subst h
         apply fatal_emit _ _ _ _ _ _ hinv
         · simp
         · intro r
           cases r <;> simp [Ev.isReq]
         · simp [Ev.isFailedReq, Ev.isAnyReq, Ev.isReq]
         · simp [Ev.isAnyReq, Ev.isReq]
         · simp [Ev.isAnyReq, Ev.isReq]))
    | (simp only [Option.some.injEq, List.append_assoc, List.cons_append,
           List.nil_append] at h
       subst h
       apply fatal_emit _ _ _ _ _ _ hinv
       · simp
       · intro r
         cases r <;> simp [Ev.isReq]
       · simp [Ev.isFailedReq, Ev.isAnyReq, Ev.isReq]
       · simp [Ev.isAnyReq, Ev.isReq]
       · simp [Ev.isAnyReq, Ev.isReq])

theorem fatal_run (ls : List Label) :
    ∀ s s', run s ls = some s' → InvFatal s → InvFatal s' := by
  induction ls with
  | nil => intro s s' h hinv; cases h; exact hinv
  | cons l ls ih =>
    intro s s' h hinv
    simp only [run, Option.bind_eq_some] at h
    obtain ⟨s1, h1, h2⟩ := h
    refine ih s1 s' h2 ?_
    cases l with
    | main ret => exact fatal_main s s1 ret h1 hinv
    | cb c => exact fatal_cb s s1 c h1 hinv

theorem failure_keeps_vars (s : State) (c : Callback) (hc : c.isFailure = true) :
    ∃ s', step s (.cb c) = some s' ∧ s'.vars = s.vars ∧ s'.past = s.past ∧
      ∃ lvl fmt args, s'.trace = s.trace ++ [.enter c, .log lvl fmt args] ∧ lvl ≠ .INF := by
  cases c <;> simp [Callback.isFailure] at hc
  all_goals
    simp [step, callback, security_changed, remote_capabilities_cb, config_create_cb,
      security_enable_cb, procedure_enable_cb, State.emit, hc]

theorem failing_request_returns (s : State) (r : Req) (ret : Int) (hret : ret ≠ 0)
    (hpc : s.vars.pc = reqPC r) :
    ∃ s' evs, main_step ret s = some s' ∧ s'.trace = s.trace ++ evs ∧
      s'.vars = { s.vars with pc := .returned } ∧
      (∀ ret', main_step ret' s' = none) ∧
      evs.any (fun e => e.isReq r && e.isFailedReq) = true ∧
      ∃ fmt, evs.getLast? = some (.log .ERR fmt [.num ret]) := by
  rcases s with ⟨⟨pc, s1, s2, s3, s4, s5, conn⟩, trace, past⟩
  simp only at hpc
  subst hpc
  cases r <;>
    (simp only [main_step, request, reqPC, State.emit, State.goto, ne_eq, hret,
       not_false_eq_true, if_true, List.append_assoc, List.cons_append, List.nil_append]
     refine ⟨_, _, rfl, rfl, rfl, fun _ => rfl, ?_, _, rfl⟩
     simp [Ev.isReq, Ev.isFailedReq, Ev.isAnyReq, hret])


theorem main_step_blocked (s s' : State) (hv : s'.vars = s.vars) (ret : Int)
    (h : main_step ret s = none) : main_step ret s' = none := by
  rcases s with ⟨⟨pc, s1, s2, s3, s4, s5, conn⟩, trace, past⟩
  rcases s' with ⟨v', trace', past'⟩
  simp only at hv
  subst hv
  cases pc <;> simp only [main_step, request, State.emit, State.goto] at h ⊢
  all_goals
    first
    | (split_ifs at h)
    | (simp only [k_sem_take, Option.map_eq_none'] at h ⊢
       split_ifs at h ⊢
       rfl)
    | rfl

end cs_ini

/-- C8: in every run of the initiator from boot, a failure is fatal to the
session. A request of the sequence that returns an error makes `main` log the
error and return at once, and no request follows it in the trace; a completion
with a non-success status logs the failure and changes no variable, so that a
`main` blocked on that step stays blocked; a request whose preceding step has
no success completion in the trace is not in the trace; and no request is in
the trace twice. -/
theorem initiator_failure_fatal (ls : List Label) (s : cs_ini.State)
    (h : cs_ini.run cs_ini.boot ls = some s) :
    (∀ (r : Req) (ret : Int), ret ≠ 0 → s.vars.pc = cs_ini.reqPC r →
      ∃ s' evs, cs_ini.main_step ret s = some s' ∧ s'.trace = s.trace ++ evs ∧
        s'.vars = { s.vars with pc := .returned } ∧
        (∀ ret', cs_ini.main_step ret' s' = none) ∧
        evs.any (fun e => e.isReq r && e.isFailedReq) = true ∧
        ∃ fmt, evs.getLast? = some (.log .ERR fmt [.num ret])) ∧
    (∀ c : Callback, c.isFailure = true →
      ∃ s', cs_ini.step s (.cb c) = some s' ∧ s'.vars = s.vars ∧
        (∀ ret, cs_ini.main_step ret s = none → cs_ini.main_step ret s' = none) ∧
        ∃ lvl fmt args, s'.trace = s.trace ++ [.enter c, .log lvl fmt args] ∧ lvl ≠ .INF) ∧
    NoneAfter Ev.isFailedReq Ev.isAnyReq s.trace ∧
    (s.trace.any Ev.isFailedReq = true → s.vars.pc = .returned) ∧
    (∀ r : Req, (∀ e ∈ s.trace, Ev.isOk r.after e = false) →
      ∀ e ∈ s.trace, Ev.isReq r e = false) ∧
    ∀ r : Req, s.trace.countP (Ev.isReq r) ≤ 1 := by
  have hf := cs_ini.fatal_run ls _ _ h (cs_ini.fatal_reboot [])
  have hinv := cs_ini.inv_run ls _ _ h (cs_ini.inv_reboot [])
  refine ⟨fun r ret hret hpc => cs_ini.failing_request_returns s r ret hret hpc, ?_,
    hf.2.2.2, hf.2.2.1, fun r => precedes_none _ _ _ (hinv.2 r), hf.2.1⟩
  intro c hc
  obtain ⟨s', hs', hv, _, htr⟩ := cs_ini.failure_keeps_vars s c hc
  exact ⟨s', hs', hv, fun ret hb => cs_ini.main_step_blocked s s' hv ret hb, htr⟩

/-- Witness of C8: the set-security request fails. -/
theorem initiator_failure_fatal_witness :
    ∃ s, cs_ini.run cs_ini.boot iniFailRun = some s ∧
      s.trace.any Ev.isFailedReq = true ∧ s.vars.pc = .returned ∧
      NoneAfter Ev.isFailedReq Ev.isAnyReq s.trace :=
  ⟨_, rfl, by decide, (initiator_failure_fatal iniFailRun _ rfl).2.2.2.1 (by decide),
    (initiator_failure_fatal iniFailRun _ rfl).2.2.1⟩

/-! ## Ordering invariant of the reflector -/

namespace cs_ref

theorem ref_inv_reboot (p : List Ev) : Inv { vars := bootVars, trace := [], past := p } := by
  refine ⟨?_, ?_, precedes_nil _ _, precedes_nil _ _⟩ <;> simp [bootVars]

theorem ref_inv_emit (v v' : Vars) (t evs p p' : List Ev) (hinv : Inv ⟨v, t, p⟩)
    (h1 : (0 < v'.sem_connected.count ∨ v'.pc = .set_default_settings) →
      (0 < v.sem_connected.count ∨ v.pc = .set_default_settings) ∨
        evs.any (Ev.isOk .connected) = true)
    (h2 : (0 < v'.sem_config.count ∨ v'.pc = .set_procedure_parameters) →
      (0 < v.sem_config.count ∨ v.pc = .set_procedure_parameters) ∨
        evs.any (Ev.isOk .config_created) = true)
    (h3 : evs.any (Ev.isReq .set_default_settings) = true → v.pc = .set_default_settings)
    (h4 : evs.any (Ev.isReq .set_procedure_parameters) = true →
      v.pc = .set_procedure_parameters) :
    Inv ⟨v', t ++ evs, p'⟩ := by
  obtain ⟨i1, i2, i3, i4⟩ := hinv
  simp only at i1 i2 i3 i4
  refine ⟨?_, ?_, ?_, ?_⟩
  · intro h
    simp only [List.any_append, Bool.or_eq_true]
    rcases h1 h with h | h
    · exact Or.inl (i1 h)
    · exact Or.inr h
  · intro h
    simp only [List.any_append, Bool.or_eq_true]
    rcases h2 h with h | h
    · exact Or.inl (i2 h)
    · exact Or.inr h
  · apply precedes_append _ _ _ _ i3
    intro e he hb
    exact i1 (Or.inr (h3 (List.any_eq_true.2 ⟨e, he, hb⟩)))
  · apply precedes_append _ _ _ _ i4
    intro e he hb
    exact i2 (Or.inr (h4 (List.any_eq_true.2 ⟨e, he, hb⟩)))

theorem ref_inv_vars (v v' : Vars) (t p p' : List Ev) (hinv : Inv ⟨v, t, p⟩)
    (h1 : (0 < v'.sem_connected.count ∨ v'.pc = .set_default_settings) →
      (0 < v.sem_connected.count ∨ v.pc = .set_default_settings))
    (h2 : (0 < v'.sem_config.count ∨ v'.pc = .set_procedure_parameters) →
      (0 < v.sem_config.count ∨ v.pc = .set_procedure_parameters)) :
    Inv ⟨v', t, p'⟩ := by
  have := ref_inv_emit v v' t [] p p' hinv (fun h => Or.inl (h1 h)) (fun h => Or.inl (h2 h))
    (fun h => by simp at h) (fun h => by simp at h)
  simpa using this

theorem ref_inv_main (cfg : Bool) (s s' : State) (ret : Int) (h : main_step cfg ret s = some s')
    (hinv : Inv s) : Inv s' := by
  rcases s with ⟨⟨pc, s1, s2, conn⟩, trace, past⟩
  cases pc <;>
    simp only [main_step, State.emit, State.goto, k_sem_take, Option.map_eq_some',
      List.append_assoc, List.cons_append, List.nil_append] at h
  all_goals
    first
    | (cases h; done)
    | (obtain ⟨a, ha, rfl⟩ := h
       split_ifs at ha with hc
       cases ha
       apply ref_inv_vars _ _ _ _ _ hinv <;> simp <;> omega)
    | (split_ifs at h with hret <;>
        (simp only [Option.some.injEq, List.append_assoc, List.cons_append,
           List.nil_append] at h
         subst h
         apply ref_inv_emit _ _ _ _ _ _ hinv <;> simp [Ev.isOk, Ev.isReq]))


theorem ref_inv_cb (s s' : State) (c : Callback) (h : callback c (s.emit [.enter c]) = some s')
    (hinv : Inv s) : Inv s' := by
  rcases s with ⟨v, trace, past⟩
  cases c <;>
    simp only [callback, connected_cb, disconnected_cb, remote_capabilities_cb,
      config_create_cb, security_enable_cb, procedure_enable_cb, sys_reboot,
      State.emit, State.goto, List.append_assoc, List.cons_append, List.nil_append] at h
  case disconnected conn reason =>
    cases h
    exact ref_inv_reboot _
  case subevent_result conn result =>
    split at h
    · rename_i out hout
      cases h
      have hno : ∀ r : Req,
          (Ev.enter (Callback.subevent_result conn result) :: out).any (Ev.isReq r) = false := by
        intro r
        have := text_any_req out (subevent_result_cb_text _ _ _ _ _ hout) r
        cases r <;> simpa [Ev.isReq] using this
      apply ref_inv_emit _ _ _ _ _ _ hinv
      · exact fun h => Or.inl h
      · exact fun h => Or.inl h
      · intro h
        rw [hno] at h
        cases h
      · intro h
        rw [hno] at h
        cases h
    · cases h
  all_goals
    first
    | (cases h; done)
    | (split_ifs at h with hc <;>
        (simp only [Option.some.injEq, List.append_assoc, List.cons_append,
           List.nil_append] at h
         try simp only [ne_eq, not_not] at hc
         subst h
         apply ref_inv_emit _ _ _ _ _ _ hinv <;> simp [Ev.isOk, Ev.isReq, k_sem_give, hc]))

theorem ref_inv_run (cfg : Bool) (ls : List Label) :
    ∀ s s', run cfg s ls = some s' → Inv s → Inv s' := by
  induction ls with
  | nil => intro s s' h hinv; cases h; exact hinv
  | cons l ls ih =>
    intro s s' h hinv
    simp only [run, Option.bind_eq_some] at h
    obtain ⟨s1, h1, h2⟩ := h
    refine ih s1 s' h2 ?_
    cases l with
    | main ret => exact ref_inv_main cfg s s1 ret h1 hinv
    | cb c => exact ref_inv_cb s s1 c h1 hinv

theorem step_past (cfg : Bool) (p : List Ev) (s s' : State) (l : Label)
    (h : step cfg s l = some s') :
    step cfg (s.withPast p) l = some (s'.withPast p) := by
  rcases s with ⟨⟨pc, s1, s2, conn⟩, trace, past⟩
  cases l with
  | main ret =>
    cases pc <;>
      simp only [step, main_step, State.emit, State.goto, State.withPast, k_sem_take,
        Option.map_eq_some'] at h ⊢
    all_goals
      first
      | (cases h; done)
      | (obtain ⟨a, ha, rfl⟩ := h
         exact ⟨a, ha, rfl⟩)
      | (split_ifs at h ⊢ <;> (cases h; rfl))
  | cb c =>
    cases c <;>
      simp only [step, callback, connected_cb, disconnected_cb, remote_capabilities_cb,
        config_create_cb, security_enable_cb, procedure_enable_cb, sys_reboot,
        State.emit, State.goto, State.withPast] at h ⊢
    all_goals
      first
      | (cases h; done)
      | (cases h
         simp only [List.append_assoc]
         done)
      | (split_ifs at h ⊢ <;> (cases h; rfl))
      | (split at h
         · rename_i out hout
           cases h
           simp only [hout]
         · cases h)

theorem run_past (cfg : Bool) (p : List Ev) (ls : List Label) :
    ∀ s s', run cfg s ls = some s' → run cfg (s.withPast p) ls = some (s'.withPast p) := by
  induction ls with
  | nil => intro s s' h; cases h; rfl
  | cons l ls ih =>
    intro s s' h
    simp only [run, Option.bind_eq_some] at h ⊢
    obtain ⟨s1, h1, h2⟩ := h
    exact ⟨_, step_past cfg p s s1 l h1, ih s1 s' h2⟩

end cs_ref

/-! ## Claims on disconnection, the reflector and config creation -/

/-- C6: in both programs and in every state, whichever step is pending,
`disconnected_cb` runs and ends the session: it releases the link handle
(`bt_conn_unref(conn)`), the stored `connection` is NULL afterwards, and it
calls `sys_reboot(SYS_REBOOT_COLD)` exactly once, which leaves every variable
at its boot value. -/
theorem disconnect_reboots (ini : cs_ini.State) (ref : cs_ref.State) (cfg : Bool)
    (conn : Conn) (reason : Nat) :
    (∃ s' evs, cs_ini.step ini (.cb (.disconnected conn reason)) = some s' ∧
      s'.vars.connection = none ∧ s'.vars = cs_ini.bootVars ∧ s'.trace = [] ∧
      s'.past = ini.past ++ ini.trace ++ evs ∧
      evs = [ .enter (.disconnected conn reason),
              .log .INF "Disconnected (reason 0x%02X)" [.num reason],
              .call (.bt_conn_unref conn) 0, .call .dk_set_led_off 0,
              .call (.sys_reboot true) 0 ] ∧
      evs.countP Ev.isReboot = 1) ∧
    (∃ s' evs, cs_ref.step cfg ref (.cb (.disconnected conn reason)) = some s' ∧
      s'.vars.connection = none ∧ s'.vars = cs_ref.bootVars ∧ s'.trace = [] ∧
      s'.past = ref.past ++ ref.trace ++ evs ∧
      evs = [ .enter (.disconnected conn reason),
              .log .INF "Disconnected (reason 0x%02X)" [.num reason],
              .call (.bt_conn_unref conn) 0, .call .dk_set_led_off 0,
              .call (.sys_reboot true) 0 ] ∧
      evs.countP Ev.isReboot = 1) := by
  refine ⟨⟨_, _, rfl, rfl, rfl, rfl, ?_, rfl, rfl⟩, ⟨_, _, rfl, rfl, rfl, rfl, ?_, rfl, rfl⟩⟩
  · simp [cs_ini.disconnected_cb, cs_ini.sys_reboot, cs_ini.State.emit]
  · simp [cs_ref.disconnected_cb, cs_ref.sys_reboot, cs_ref.State.emit]

theorem cs_ref.run_append (cfg : Bool) (a b : List Label) :
    ∀ s, cs_ref.run cfg s (a ++ b) = (cs_ref.run cfg s a).bind fun s' => cs_ref.run cfg s' b := by
  induction a with
  | nil => intro s; rfl
  | cons l a ih =>
    intro s
    simp only [List.cons_append, cs_ref.run]
    cases cs_ref.step cfg s l with
    | none => rfl
    | some s1 => simp [ih]

/-- C9: no leakage across connections of the reflector. Whatever the run
`ls1` of the first connection delivered, its disconnection leaves every
variable, both semaphores included, at its boot value; the run `ls2` that
follows behaves exactly as it does from boot; and in it the default-settings
request comes after a successful connection of that run and the
procedure-parameter request after a successful config creation of that
run. -/
theorem reflector_no_leak (cfg : Bool) (ls1 ls2 : List Label) (conn : Conn) (reason : Nat)
    (s1 s2 : cs_ref.State)
    (h1 : cs_ref.run cfg cs_ref.boot ls1 = some s1)
    (h2 : cs_ref.run cfg cs_ref.boot ls2 = some s2) :
    ∃ s1', cs_ref.step cfg s1 (.cb (.disconnected conn reason)) = some s1' ∧
      s1'.vars = cs_ref.bootVars ∧ s1'.trace = [] ∧
      cs_ref.run cfg s1' ls2 = some { s2 with past := s1'.past ++ s2.past } ∧
      cs_ref.run cfg cs_ref.boot (ls1 ++ .cb (.disconnected conn reason) :: ls2) =
        some { s2 with past := s1'.past ++ s2.past } ∧
      Precedes (Ev.isOk .connected) (Ev.isReq .set_default_settings) s2.trace ∧
      Precedes (Ev.isOk .config_created) (Ev.isReq .set_procedure_parameters) s2.trace := by
  have hinv := cs_ref.ref_inv_run cfg ls2 _ _ h2 (cs_ref.ref_inv_reboot [])
  obtain ⟨P, hstep⟩ : ∃ P, cs_ref.step cfg s1 (.cb (.disconnected conn reason)) =
      some ⟨cs_ref.bootVars, [], P⟩ := ⟨_, rfl⟩
  have hrun := cs_ref.run_past cfg P ls2 _ _ h2
  have hrun' : cs_ref.run cfg ⟨cs_ref.bootVars, [], P⟩ ls2 =
      some { s2 with past := P ++ s2.past } := by
    simpa [cs_ref.State.withPast, cs_ref.boot] using hrun
  refine ⟨_, hstep, rfl, rfl, hrun', ?_, hinv.2.2.1, hinv.2.2.2⟩
  rw [cs_ref.run_append, h1]
  simp only [Option.some_bind, cs_ref.run, hstep]
  exact hrun'

/-- Witness of C9: the first connection ends with a config-created signal
still raised; the second run does not see it. -/
theorem reflector_no_leak_witness :
    ∃ s1 s2, cs_ref.run true cs_ref.boot refRun = some s1 ∧
      0 < s1.vars.sem_config.count ∧
      cs_ref.run true cs_ref.boot (refRun ++ .cb (.disconnected 7 19) :: refRun) =
        some s2 ∧
      Precedes (Ev.isOk .config_created) (Ev.isReq .set_procedure_parameters) s2.trace := by
  obtain ⟨s1', _, _, _, _, h5, _, h7⟩ :=
    reflector_no_leak true refRun refRun 7 19 _ _ rfl rfl
  exact ⟨_, _, rfl, by decide, h5, h7⟩


/-- C7, counterexample: when the procedure-parameter request of the reflector
fails, `main` logs the error and returns; it is not waiting for a connection
and runs no further statement. -/
theorem reflector_params_failure_exits :
    ∃ s, cs_ref.run true cs_ref.boot refFailRun = some s ∧ s.vars.pc = .returned ∧
      Ev.log .ERR "Failed to set procedure parameters (err %d)" [.num (-22)] ∈ s.trace ∧
      ∀ ret, cs_ref.main_step true ret s = none :=
  ⟨_, rfl, rfl, by decide, fun _ => rfl⟩

/-- C7, amended: in the reflector a completion of capability exchange, config
creation, security enable or procedure enable with a non-success status logs
a warning and changes no variable, and a failed default-settings request logs
an error and `main` goes on to wait for the config creation; a failed
procedure-parameter request logs an error and `main` returns. -/
theorem reflector_failures (cfg : Bool) (s : cs_ref.State) :
    (∀ conn status, status ≠ BT_HCI_ERR_SUCCESS →
      cs_ref.step cfg s (.cb (.remote_capabilities conn status)) =
        some { s with trace := s.trace ++
          [ .enter (.remote_capabilities conn status),
            .log .WRN "CS capability exchange failed. (HCI status 0x%02x)" [.num status] ] }) ∧
    (∀ conn status config, status ≠ BT_HCI_ERR_SUCCESS →
      cs_ref.step cfg s (.cb (.config_create conn status config)) =
        some { s with trace := s.trace ++
          [ .enter (.config_create conn status config),
            .log .WRN "CS config creation failed. (HCI status 0x%02x)" [.num status] ] }) ∧
    (∀ conn status, status ≠ BT_HCI_ERR_SUCCESS →
      cs_ref.step cfg s (.cb (.security_enable conn status)) =
        some { s with trace := s.trace ++
          [ .enter (.security_enable conn status),
            .log .WRN "CS security enable failed. (HCI status 0x%02x)" [.num status] ] }) ∧
    (∀ conn status params, status ≠ BT_HCI_ERR_SUCCESS →
      cs_ref.step cfg s (.cb (.procedure_enable conn status params)) =
        some { s with trace := s.trace ++
          [ .enter (.procedure_enable conn status params),
            .log .WRN "CS procedures enable failed. (HCI status 0x%02x)" [.num status] ] }) ∧
    (s.vars.pc = .set_default_settings → ∀ ret : Int, ret ≠ 0 →
      cs_ref.step cfg s (.main ret) =
        some { vars := { s.vars with pc := .take_config },
               trace := s.trace ++
                 [ .call (.bt_le_cs_set_default_settings s.vars.connection false true) ret,
                   .log .ERR "Failed to configure default CS settings (err %d)" [.num ret] ],
               past := s.past }) ∧
    (s.vars.pc = .set_procedure_parameters → ∀ ret : Int, ret ≠ 0 →
      cs_ref.step cfg s (.main ret) =
        some { vars := { s.vars with pc := .returned },
               trace := s.trace ++
                 [ .call (.bt_le_cs_set_procedure_parameters s.vars.connection
                     0 1000 1 100 0 10000 75000) ret,
                   .log .ERR "Failed to set procedure parameters (err %d)" [.num ret] ],
               past := s.past }) := by
  rcases s with ⟨⟨pc, s1, s2, conn⟩, trace, past⟩
  refine ⟨?_, ?_, ?_, ?_, ?_, ?_⟩
  · intro conn status h
    simp [cs_ref.step, cs_ref.callback, cs_ref.remote_capabilities_cb, cs_ref.State.emit, h]
  · intro conn status config h
    simp [cs_ref.step, cs_ref.callback, cs_ref.config_create_cb, cs_ref.State.emit, h]
  · intro conn status h
    simp [cs_ref.step, cs_ref.callback, cs_ref.security_enable_cb, cs_ref.State.emit, h]
  · intro conn status params h
    simp [cs_ref.step, cs_ref.callback, cs_ref.procedure_enable_cb, cs_ref.State.emit, h]
  · intro hpc ret h
    simp only at hpc
    subst hpc
    simp [cs_ref.step, cs_ref.main_step, cs_ref.State.emit, cs_ref.State.goto, h]
  · intro hpc ret h
    simp only at hpc
    subst hpc
    simp [cs_ref.step, cs_ref.main_step, cs_ref.State.emit, cs_ref.State.goto, h]

/-- Witness of C7: a failed default-settings request and a failed config
creation, with `main` at the default-settings request. -/
theorem reflector_failures_witness :
    cs_ref.step true refAtDefault (.main (-5)) =
      some { vars := { refAtDefault.vars with pc := .take_config },
             trace := refAtDefault.trace ++
               [ .call (.bt_le_cs_set_default_settings refAtDefault.vars.connection false true)
                   (-5),
                 .log .ERR "Failed to configure default CS settings (err %d)" [.num (-5)] ],
             past := refAtDefault.past } ∧
    cs_ref.step true refAtDefault (.cb (.config_create 7 12 ⟨0, 2, 2, 5, 0, 3, 1, 1, 0⟩)) =
      some { refAtDefault with trace := refAtDefault.trace ++
        [ .enter (.config_create 7 12 ⟨0, 2, 2, 5, 0, 3, 1, 1, 0⟩),
          .log .WRN "CS config creation failed. (HCI status 0x%02x)" [.num 12] ] } :=
  ⟨(reflector_failures true refAtDefault).2.2.2.2.1 rfl (-5) (by decide),
   (reflector_failures true refAtDefault).2.1 7 12 _ (by decide)⟩

/-- C10, counterexample: the initiator stores no Config Record. Two different
records delivered with success status leave the same variables, so no function
of the variables returns the record received. -/
theorem config_record_not_stored :
    cfgExample ≠ cfgOther ∧
      (cs_ini.config_create_cb 5 BT_HCI_ERR_SUCCESS cfgExample iniWaitConfig).vars =
        (cs_ini.config_create_cb 5 BT_HCI_ERR_SUCCESS cfgOther iniWaitConfig).vars ∧
      ¬ ∃ stored : cs_ini.Vars → bt_conn_le_cs_config, ∀ config,
        stored (cs_ini.config_create_cb 5 BT_HCI_ERR_SUCCESS config iniWaitConfig).vars =
          config := by
  refine ⟨by decide, rfl, ?_⟩
  rintro ⟨stored, h⟩
  have h1 := h cfgExample
  have h2 := h cfgOther
  have hv : (cs_ini.config_create_cb 5 BT_HCI_ERR_SUCCESS cfgExample iniWaitConfig).vars =
      (cs_ini.config_create_cb 5 BT_HCI_ERR_SUCCESS cfgOther iniWaitConfig).vars := rfl
  rw [hv, h2] at h1
  exact absurd h1.symm (by decide)

/-- C10, amended: on a config-creation completion with success status the
initiator logs the nine fields of the received record with their values and
raises the config-created signal, and stores nothing else; with a non-success
status it logs a warning and changes no variable. For a `main` blocked on the
config-created signal, the success completion lets it pass the wait and issue
the CS-security-enable request, the non-success completion leaves it
blocked. -/
theorem initiator_config_created (s : cs_ini.State) (conn : Conn) (status : Nat)
    (config : bt_conn_le_cs_config) :
    (status = BT_HCI_ERR_SUCCESS →
      cs_ini.step s (.cb (.config_create conn status config)) =
        some { vars := { s.vars with
                 sem_config_created := k_sem_give s.vars.sem_config_created },
               trace := s.trace ++
                 [ .enter (.config_create conn status config),
                   .log .INF "CS config creation complete." [],
                   .log .INF " - id: %u" [.num config.id],
                   .log .INF " - mode: %u (Mode-2: PBR)" [.num config.mode],
                   .log .INF " - min_main_mode_steps: %u" [.num config.min_main_mode_steps],
                   .log .INF " - max_main_mode_steps: %u" [.num config.max_main_mode_steps],
                   .log .INF " - main_mode_repetition: %u" [.num config.main_mode_repetition],
                   .log .INF " - mode_0_steps: %u" [.num config.mode_0_steps],
                   .log .INF " - role: %u (Initiator)" [.num config.role],
                   .log .INF " - cs_sync_phy: %u" [.num config.cs_sync_phy],
                   .log .INF " - channel_selection_type: %u"
                     [.num config.channel_selection_type] ],
               past := s.past }) ∧
    (status ≠ BT_HCI_ERR_SUCCESS →
      cs_ini.step s (.cb (.config_create conn status config)) =
        some { s with trace := s.trace ++
          [ .enter (.config_create conn status config),
            .log .WRN "CS config creation failed. (HCI status 0x%02x)" [.num status] ] }) ∧
    (s.vars.pc = .take_config_created → s.vars.sem_config_created = ⟨0, 1⟩ →
      (∀ ret, cs_ini.step s (.main ret) = none) ∧
      ∀ s', cs_ini.step s (.cb (.config_create conn status config)) = some s' →
        (status ≠ BT_HCI_ERR_SUCCESS → ∀ ret, cs_ini.step s' (.main ret) = none) ∧
        (status = BT_HCI_ERR_SUCCESS → ∀ ret ret', ∃ s1 s2,
          cs_ini.step s' (.main ret) = some s1 ∧ s1.vars.pc = .security_enable ∧
          s1.vars.sem_config_created = ⟨0, 1⟩ ∧
          cs_ini.step s1 (.main ret') = some s2 ∧
          Ev.call (.bt_le_cs_security_enable s.vars.connection) ret' ∈ s2.trace)) := by
  rcases s with ⟨⟨pc, s1, s2, s3, s4, s5, c⟩, trace, past⟩
  refine ⟨?_, ?_, ?_⟩
  · intro h
    simp [cs_ini.step, cs_ini.callback, cs_ini.config_create_cb, cs_ini.State.emit, h]
  · intro h
    simp [cs_ini.step, cs_ini.callback, cs_ini.config_create_cb, cs_ini.State.emit, h]
  · intro hpc hsem
    simp only at hpc hsem
    subst hpc hsem
    refine ⟨fun ret => by simp [cs_ini.step, cs_ini.main_step, k_sem_take], ?_⟩
    intro s' hs'
    by_cases h : status = BT_HCI_ERR_SUCCESS
    · simp [cs_ini.step, cs_ini.callback, cs_ini.config_create_cb, cs_ini.State.emit, h]
        at hs'
      subst hs'
      refine ⟨fun hne => absurd h hne, fun _ ret ret' => ?_⟩
      by_cases hr : ret' = 0 <;>
        simp [cs_ini.step, cs_ini.main_step, cs_ini.request, cs_ini.State.emit,
          cs_ini.State.goto, k_sem_take, k_sem_give, hr]
    · simp [cs_ini.step, cs_ini.callback, cs_ini.config_create_cb, cs_ini.State.emit, h]
        at hs'
      subst hs'
      refine ⟨fun _ ret => by simp [cs_ini.step, cs_ini.main_step, k_sem_take],
        fun he => absurd he h⟩

/-- Witness of C10: the record of the scenario, delivered with success status
to the initiator blocked on the config-created signal. -/
theorem initiator_config_created_witness :
    (∀ ret, cs_ini.step iniWaitConfig (.main ret) = none) ∧
    ∀ s', cs_ini.step iniWaitConfig (.cb (.config_create 5 0 cfgExample)) = some s' →
      (0 ≠ BT_HCI_ERR_SUCCESS → ∀ ret, cs_ini.step s' (.main ret) = none) ∧
      (0 = BT_HCI_ERR_SUCCESS → ∀ ret ret', ∃ s1 s2,
        cs_ini.step s' (.main ret) = some s1 ∧ s1.vars.pc = .security_enable ∧
        s1.vars.sem_config_created = ⟨0, 1⟩ ∧
        cs_ini.step s1 (.main ret') = some s2 ∧
        Ev.call (.bt_le_cs_security_enable iniWaitConfig.vars.connection) ret' ∈ s2.trace) :=
  (initiator_config_created iniWaitConfig 5 0 cfgExample).2.2 rfl rfl

/-! ## Termination and memory safety of the hex-dump loops -/

theorem hexdump_inner_log_events (w : Nat) (buf : net_buf_simple) (i : Nat) :
    ∀ fuel j, (hexdump_inner_log w buf i fuel j).map Prod.fst = hexdump_inner w buf i fuel j := by
  intro fuel
  induction fuel with
  | zero => intro j; rfl
  | succ fuel ih =>
    intro j
    simp only [hexdump_inner_log, hexdump_inner]
    split_ifs with hc
    · cases hb : buf.data[(i + j) % 2 ^ w]? with
      | none => rfl
      | some b =>
        simp only
        rw [← ih ((j + 1) % 2 ^ w)]
        cases hexdump_inner_log w buf i fuel ((j + 1) % 2 ^ w) with
        | error e => rfl
        | ok r => rfl
    · rfl

theorem hexdump_outer_log_events (w : Nat) (buf : net_buf_simple) (fuel : Nat) :
    ∀ n i, (hexdump_outer_log w buf fuel n i).map Prod.fst = hexdump_outer w buf fuel n i := by
  intro n
  induction n with
  | zero => intro i; rfl
  | succ n ih =>
    intro i
    simp only [hexdump_outer_log, hexdump_outer]
    split_ifs with hc
    · rw [← hexdump_inner_log_events w buf i fuel 0]
      cases hexdump_inner_log w buf i fuel 0 with
      | error e => rfl
      | ok r =>
        simp only [Except.map]
        rw [← ih ((i + 16) % 2 ^ w)]
        cases hexdump_outer_log w buf fuel n ((i + 16) % 2 ^ w) with
        | error e => rfl
        | ok r' => rfl
    · rfl


theorem hexdump_inner_log_ok (w : Nat) (buf : net_buf_simple) (i : Nat)
    (hw : buf.len + 16 ≤ 2 ^ w) (hlen : buf.len ≤ buf.data.length) (hi : i < buf.len) :
    ∀ fuel j, j ≤ 16 → 17 - j ≤ fuel →
      ∃ evs, hexdump_inner_log w buf i fuel j =
        .ok (evs, List.range' (i + j) (min (16 - j) (buf.len - (i + j)))) := by
  intro fuel
  induction fuel with
  | zero => intro j hj hf; omega
  | succ fuel ih =>
    intro j hj hf
    generalize hM : 2 ^ w = M at hw ih
    have hmod : (i + j) % M = i + j := Nat.mod_eq_of_lt (by omega)
    by_cases hc : j < 16 ∧ i + j < buf.len
    · have hmod1 : (j + 1) % M = j + 1 := Nat.mod_eq_of_lt (by omega)
      have hd : i + j < buf.data.length := by omega
      obtain ⟨rest, hrest⟩ := ih (j + 1) (by omega) (by omega)
      have hmin : min (16 - j) (buf.len - (i + j)) =
          min (16 - (j + 1)) (buf.len - (i + (j + 1))) + 1 := by omega
      simp only [hexdump_inner_log, hM, hmod, hc, and_self, if_true, hmod1,
        List.getElem?_eq_getElem hd, hrest]
      rw [hmin, List.range'_succ]
      exact ⟨_, rfl⟩
    · have hmin : min (16 - j) (buf.len - (i + j)) = 0 := by
        by_cases hj16 : j < 16
        · have := fun h => hc ⟨hj16, h⟩
          omega
        · omega
      simp only [hexdump_inner_log, hM, hmod, hc, if_false, hmin]
      exact ⟨_, rfl⟩

theorem hexdump_outer_log_ok (w : Nat) (buf : net_buf_simple) (fuel : Nat)
    (hw : buf.len + 16 ≤ 2 ^ w) (hlen : buf.len ≤ buf.data.length) (hfuel : 17 ≤ fuel) :
    ∀ n i, (buf.len + 15 - i) / 16 + 1 ≤ n →
      ∃ evs, hexdump_outer_log w buf fuel n i =
        .ok (evs, List.range' i (buf.len - i),
          List.range' (i + 16) ((buf.len + 15 - i) / 16) 16) := by
  intro n
  induction n with
  | zero => intro i hn; omega
  | succ n ih =>
    intro i hn
    by_cases hi : i < buf.len
    · have hk : (buf.len + 15 - i) / 16 = (buf.len + 15 - (i + 16)) / 16 + 1 := by omega
      have hmod : (i + 16) % 2 ^ w = i + 16 := Nat.mod_eq_of_lt (by omega)
      obtain ⟨line, hline⟩ := hexdump_inner_log_ok w buf i hw hlen hi fuel 0 (by omega) (by omega)
      obtain ⟨rest, hrest⟩ := ih (i + 16) (by omega)
      simp only [hexdump_outer_log, hi, if_true, hline, hmod, hrest]
      rw [hk, List.range'_succ]
      have hr : List.range' (i + 0) (min (16 - 0) (buf.len - (i + 0))) ++
          List.range' (i + 16) (buf.len - (i + 16)) = List.range' i (buf.len - i) := by
        by_cases h16 : 16 ≤ buf.len - i
        · have h1 : min (16 - 0) (buf.len - (i + 0)) = 16 := by omega
          have h2 : buf.len - i = (buf.len - (i + 16)) + 16 := by omega
          rw [h1, h2, ← List.range'_append i 16 _ 1]
          simp
        · have h1 : min (16 - 0) (buf.len - (i + 0)) = buf.len - i := by omega
          have h2 : buf.len - (i + 16) = 0 := by omega
          rw [h1, h2]
          simp
      rw [hr]
      exact ⟨_, rfl⟩
    · have hk : (buf.len + 15 - i) / 16 = 0 := by omega
      have h0 : buf.len - i = 0 := by omega
      simp only [hexdump_outer_log, hi, if_false, hk, h0]
      exact ⟨_, rfl⟩

theorem range'_16_lt (s n a : Nat) (ha : a ∈ List.range' s n 16) : a < s + 16 * n := by
  rw [List.mem_range'] at ha
  obtain ⟨k, hk, rfl⟩ := ha
  omega

/-- C11: for every buffer whose length `L` fits 16 bits and whose storage holds
`L` bytes, on a `size_t` of at least 32 bits, the hex-dump loops of
`subevent_result_cb` terminate (with `L / 16 + 17` units of fuel they return,
and so does the callback); the sum `i + 16` of every update of the outer
counter is below `2 ^ w`, so the counter never wraps around; and the indices
read are `0, 1, ..., L - 1`, each below `L`, so that no byte outside the buffer
is read. -/
theorem hexdump_loops_safe (w fuel : Nat) (buf : net_buf_simple)
    (h16 : buf.len ≤ 65535) (hstore : buf.len ≤ buf.data.length) (hw : 32 ≤ w)
    (hfuel : buf.len / 16 + 17 ≤ fuel) :
    ∃ evs reads sums, hexdump_outer_log w buf fuel fuel 0 = .ok (evs, reads, sums) ∧
      hexdump_outer w buf fuel fuel 0 = .ok evs ∧
      (∀ conn result, result.step_data_buf = some buf →
        ∃ out, subevent_result_cb w fuel conn result = .ok out) ∧
      reads = List.range buf.len ∧
      (∀ idx ∈ reads, idx < buf.len) ∧
      sums.length = (buf.len + 15) / 16 ∧
      ∀ a ∈ sums, a < 2 ^ w := by
  have h32 : 2 ^ 32 ≤ 2 ^ w := Nat.pow_le_pow_right (by decide) hw
  have hp : (2 : Nat) ^ 32 = 4294967296 := by norm_num
  have hw2 : buf.len + 16 ≤ 2 ^ w := by omega
  obtain ⟨evs, hlog⟩ := hexdump_outer_log_ok w buf fuel hw2 hstore (by omega) fuel 0 (by omega)
  have hev : hexdump_outer w buf fuel fuel 0 = .ok evs := by
    rw [← hexdump_outer_log_events, hlog]
    rfl
  refine ⟨evs, _, _, hlog, hev, ?_, ?_, ?_, ?_, ?_⟩
  · intro conn result hres
    by_cases hpos : 0 < buf.len
    · simp only [subevent_result_cb, subevent_buffer, hres, gt_iff_lt, hpos, if_true, hev]
      exact ⟨_, rfl⟩
    · simp only [subevent_result_cb, subevent_buffer, hres, gt_iff_lt, hpos, if_false]
      exact ⟨_, rfl⟩
  · rw [List.range_eq_range', Nat.sub_zero]
  · intro idx hidx
    rw [Nat.sub_zero, ← List.range_eq_range'] at hidx
    exact List.mem_range.1 hidx
  · simp
  · intro a ha
    have := range'_16_lt _ _ a ha
    omega

/-- Witness of C11: a buffer of the largest length, 65535 bytes, on a 32-bit
`size_t`. -/
theorem hexdump_loops_safe_witness :
    ∃ evs reads sums, hexdump_outer_log 32 bufMax 4112 4112 0 = .ok (evs, reads, sums) ∧
      hexdump_outer 32 bufMax 4112 4112 0 = .ok evs ∧
      (∀ conn result, result.step_data_buf = some bufMax →
        ∃ out, subevent_result_cb 32 4112 conn result = .ok out) ∧
      reads = List.range bufMax.len ∧
      (∀ idx ∈ reads, idx < bufMax.len) ∧
      sums.length = (bufMax.len + 15) / 16 ∧
      ∀ a ∈ sums, a < 2 ^ 32 :=
  hexdump_loops_safe 32 4112 bufMax (by decide)
    (by show 65535 ≤ (List.replicate 65535 171).length; rw [List.length_replicate])
    (by decide) (by decide)

end Waves
